import Mathlib

/-!
Verification of the request-security pipeline of the `my-app` repository:
a shallow embedding of the CORS / CSRF / rate-limiting / security-header
middleware and of the JWT-style token module, together with theorems about
the behaviour the specification documents.

Modelling conventions:
* JavaScript strings are modelled as `List Char` (`Str`), so that all string
  processing is by structural recursion and evaluates by kernel reduction.
* `Date.now()` is an explicit `now : Int` parameter (milliseconds); the
  second-granularity clock of the token module is likewise a parameter.
* The fetch-API `Headers` class stores names lowercased; `set`, `append`,
  `delete` and `get` are modelled accordingly (case-insensitive names).
* Platform primitives used by `src/lib/crypto.ts` (base64url encoding,
  `JSON.stringify` / `JSON.parse`, the SHA-256 digest) are parameters of the
  embedding, constrained in the theorems only by their documented contracts.
-/

namespace MyApp

/-! ## Strings as character lists -/

abbrev Str := List Char

/-- Shorthand turning a Lean string literal into the `Str` model. -/
def lit (s : String) : Str := s.toList

/-- ASCII lowercasing, as applied by the `Headers` class to header names. -/
def lowerChar (c : Char) : Char :=
  if 65 ≤ c.toNat ∧ c.toNat ≤ 90 then Char.ofNat (c.toNat + 32) else c

def lower (s : Str) : Str := s.map lowerChar

/-- JS `String.prototype.split` with a single-character separator. -/
def splitOnChar (sep : Char) : Str → List Str
  | [] => [[]]
  | c :: cs =>
      if c = sep then [] :: splitOnChar sep cs
      else
        match splitOnChar sep cs with
        | [] => [[c]]
        | s1 :: rest => (c :: s1) :: rest

def isSpaceChar (c : Char) : Bool :=
  c = ' ' ∨ c = '\t' ∨ c = '\n' ∨ c = '\r'

/-- JS `String.prototype.trim`. -/
def trimStr (s : Str) : Str :=
  ((s.dropWhile isSpaceChar).reverse.dropWhile isSpaceChar).reverse

/-- JS `String.prototype.includes`. -/
def hasSubstr (hay needle : Str) : Bool :=
  hay.tails.any (fun t => needle.isPrefixOf t)

def natDigitChar (n : Nat) : Char := Char.ofNat (48 + n)

def natToStrAux : Nat → Nat → Str
  | 0, _ => []
  | fuel + 1, n =>
      if n < 10 then [natDigitChar n]
      else natToStrAux fuel (n / 10) ++ [natDigitChar (n % 10)]

/-- Decimal rendering of a natural number (JS `String(n)`). -/
def natToStr (n : Nat) : Str := natToStrAux (n + 1) n

/-- Decimal rendering of an integer (JS `String(n)`). -/
def intToStr (i : Int) : Str :=
  if i < 0 then '-' :: natToStr i.natAbs else natToStr i.toNat

/-! ## Generic association lists, modelling JS `Map` and plain objects -/

def alGet {α : Type} : List (Str × α) → Str → Option α
  | [], _ => none
  | p :: t, k => if p.1 = k then some p.2 else alGet t k

/-- `Map.set` / object assignment: update the value held under an existing
key in place, otherwise append the binding. -/
def alSet {α : Type} : List (Str × α) → Str → α → List (Str × α)
  | [], k, v => [(k, v)]
  | p :: t, k, v => if p.1 = k then (k, v) :: t else p :: alSet t k v

/-- `Map.delete` (equivalently, `filter` keeping the other keys). -/
def alDel {α : Type} : List (Str × α) → Str → List (Str × α)
  | [], _ => []
  | p :: t, k => if p.1 = k then alDel t k else p :: alDel t k

theorem alGet_alSet_same {α : Type} (l : List (Str × α)) (k : Str) (v : α) :
    alGet (alSet l k v) k = some v := by
  induction l with
  | nil => simp [alGet, alSet]
  | cons p t ih =>
      by_cases hp : p.1 = k
      · simp [alGet, alSet, hp]
      · simp [alGet, alSet, hp, ih]

theorem alGet_alSet_ne {α : Type} (l : List (Str × α)) (k m : Str) (v : α)
    (h : m ≠ k) : alGet (alSet l k v) m = alGet l m := by
  induction l with
  | nil => simp [alGet, alSet, Ne.symm h]
  | cons p t ih =>
      by_cases hp : p.1 = k
      · have : ¬ (k = m) := fun hc => h hc.symm
        simp [alGet, alSet, hp, this]
      · simp [alGet, alSet, hp, ih]

theorem alGet_alDel_same {α : Type} (l : List (Str × α)) (k : Str) :
    alGet (alDel l k) k = none := by
  induction l with
  | nil => simp [alGet, alDel]
  | cons p t ih =>
      by_cases hp : p.1 = k
      · simpa [alDel, hp] using ih
      · simpa [alGet, alDel, hp] using ih

theorem alGet_alDel_ne {α : Type} (l : List (Str × α)) (k m : Str)
    (h : m ≠ k) : alGet (alDel l k) m = alGet l m := by
  induction l with
  | nil => simp [alDel]
  | cons p t ih =>
      by_cases hp : p.1 = k
      · have hpm : ¬ p.1 = m := by
          intro hc; exact h (by rw [← hc, hp])
        simpa [alGet, alDel, hp, hpm, Ne.symm h] using ih
      · by_cases hq : p.1 = m
        · simp [alGet, alDel, hp, hq, h]
        · simpa [alGet, alDel, hp, hq] using ih

theorem alGet_append {α : Type} (l1 l2 : List (Str × α)) (k : Str) :
    alGet (l1 ++ l2) k = (alGet l1 k).or (alGet l2 k) := by
  induction l1 with
  | nil => simp [alGet]
  | cons p t ih =>
      by_cases hp : p.1 = k
      · simp [alGet, hp]
      · simp [alGet, hp, ih]

/-! ## Fetch-API `Headers` (names stored lowercased, lookups
case-insensitive) -/

abbrev HeadersL := List (Str × Str)

def hget (hs : HeadersL) (name : Str) : Option Str :=
  alGet hs (lower name)

def hdelete (hs : HeadersL) (name : Str) : HeadersL :=
  alDel hs (lower name)

/-- `Headers.set`: replaces every value held under the (case-insensitive)
name by the single new value. -/
def hset (hs : HeadersL) (name value : Str) : HeadersL :=
  alDel hs (lower name) ++ [(lower name, value)]

/-- `Headers.append`: adds a value without removing existing ones (used for
`Set-Cookie`). -/
def happend (hs : HeadersL) (name value : Str) : HeadersL :=
  hs ++ [(lower name, value)]

theorem hget_hset_same (hs : HeadersL) (n v : Str) :
    hget (hset hs n v) n = some v := by
  simp [hget, hset, alGet_append, alGet_alDel_same, alGet]

theorem hget_hset_ne (hs : HeadersL) (n v m : Str)
    (h : lower m ≠ lower n) : hget (hset hs n v) m = hget hs m := by
  simp [hget, hset, alGet_append, alGet_alDel_ne _ _ _ h, alGet, Ne.symm h]

theorem hget_hdelete_same (hs : HeadersL) (n : Str) :
    hget (hdelete hs n) n = none := by
  simp [hget, hdelete, alGet_alDel_same]

theorem hget_hdelete_ne (hs : HeadersL) (n m : Str)
    (h : lower m ≠ lower n) : hget (hdelete hs n) m = hget hs m := by
  simp [hget, hdelete, alGet_alDel_ne _ _ _ h]

theorem hget_happend_ne (hs : HeadersL) (n v m : Str)
    (h : lower m ≠ lower n) : hget (happend hs n v) m = hget hs m := by
  simp [hget, happend, alGet_append, alGet, Ne.symm h]

/-! ## Requests and responses -/

/-- An inbound HTTP request, restricted to the fields the security pipeline
reads: the method, the URL path, and the individual request headers it
consults (`headers.get` returns `null` for an absent header, modelled by
`none`). -/
structure Request where
  method : Str
  path : Str
  origin : Option Str
  cookieHeader : Option Str
  csrfHeader : Option Str
  authHeader : Option Str
  forwardedFor : Option Str
deriving Repr, DecidableEq

structure Resp where
  status : Nat
  body : Option Str
  headers : HeadersL
deriving Repr, DecidableEq

/-- JS object-field access used by `parseCookies` results: absent or empty
is falsy. -/
def orNull (o : Option Str) : Option Str :=
  match o with
  | none => none
  | some v => if v = [] then none else some v

/-- `parseCookies` (duplicated in `src/server/middleware/csrf.ts` and
`src/server/routes/auth.ts`): split the `Cookie` header on `;`, trim, split
each cookie on `=`, and keep pairs whose name and value are both truthy. -/
def parseCookies (s : Str) : List (Str × Str) :=
  (splitOnChar ';' s).foldl
    (fun acc c =>
      let parts := splitOnChar '=' (trimStr c)
      let name := parts.getD 0 []
      let value := parts.getD 1 []
      if name ≠ [] ∧ value ≠ [] then alSet acc name value else acc)
    []

/-! ## CSRF token store (`src/server/middleware/csrf.ts`) -/

structure CsrfEntry where
  token : Str
  expires : Int
deriving Repr, DecidableEq

abbrev CsrfStore := List (Str × CsrfEntry)

/-- `cleanupExpiredTokens`: drop every entry whose expiry is in the past. -/
def cleanupExpiredTokens (store : CsrfStore) (now : Int) : CsrfStore :=
  store.filter (fun p => ¬(p.2.expires < now))

/-- `generateCsrfToken`: the two `randomBytes` values are the inputs `tok`
and `cook`; the entry is stored under the cookie value with a 24-hour
expiry, and expired entries are then cleaned up. -/
def generateCsrfToken (store : CsrfStore) (now : Int) (tok cook : Str) :
    (Str × Str) × CsrfStore :=
  let store1 := alSet store cook ⟨tok, now + 24 * 60 * 60 * 1000⟩
  let store2 := cleanupExpiredTokens store1 now
  ((tok, cook), store2)

/-- Truthiness of a nullable JS string (`null`, `undefined` and `""` are
falsy). -/
def jsStrFalsy : Option Str → Bool
  | none => true
  | some s => s = []

/-- `validateCsrfToken`; deletes the entry as a side effect when it has
expired. -/
def validateCsrfToken (store : CsrfStore) (now : Int)
    (cookie token : Option Str) : Bool × CsrfStore :=
  if jsStrFalsy cookie ∨ jsStrFalsy token then (false, store)
  else
    let c := cookie.getD []
    match alGet store c with
    | none => (false, store)
    | some stored =>
        if stored.expires < now then (false, alDel store c)
        else ((stored.token = token.getD [] : Bool), store)

/-- `clearCsrfToken` (used on logout). -/
def clearCsrfToken (store : CsrfStore) (cookie : Str) : CsrfStore :=
  alDel store cookie

/-- `requiresCsrfProtection`. -/
def requiresCsrfProtection (req : Request) : Bool :=
  if req.method = lit "GET" ∨ req.method = lit "HEAD" ∨ req.method = lit "OPTIONS" then
    false
  else if req.path = lit "/api/auth/login" ∨ req.path = lit "/api/auth/register" then
    false
  else if req.path = lit "/api/health" then false
  else true

def csrfRejectBody : Str := lit "\x7b\"error\":\"CSRF token validation failed\"\x7d"

/-- `applyCsrfProtection`: `null` (here `none`) means pass. -/
def applyCsrfProtection (store : CsrfStore) (now : Int) (req : Request) :
    Option Resp × CsrfStore :=
  if ¬requiresCsrfProtection req then (none, store)
  else
    let cookies := parseCookies (req.cookieHeader.getD [])
    let csrfCookie := orNull (alGet cookies (lit "csrf-token"))
    let csrfToken := req.csrfHeader
    match validateCsrfToken store now csrfCookie csrfToken with
    | (true, store1) => (none, store1)
    | (false, store1) =>
        (some ⟨403, some csrfRejectBody, [(lit "content-type", lit "application/json")]⟩,
         store1)

/-! ## CORS (`src/server/middleware/cors.ts`) -/

def allowedOrigins (prod : Bool) (port : Nat) : List Str :=
  if prod then [lit "https://yourdomain.com"]
  else [lit "http://localhost:" ++ natToStr port,
        lit "http://localhost:" ++ natToStr (port + 1),
        lit "http://127.0.0.1:" ++ natToStr port]

/-- The guard `origin && (ALLOWED_ORIGINS.includes(origin) ||
process.env.NODE_ENV !== "production")`. -/
def originAllowed (prod : Bool) (port : Nat) (origin : Option Str) : Bool :=
  match origin with
  | none => false
  | some o => o ≠ [] ∧ (o ∈ allowedOrigins prod port ∨ ¬prod)

def applyCorsHeaders (prod : Bool) (port : Nat) (resp : Resp)
    (origin : Option Str) : Resp :=
  let hs := resp.headers
  let hs :=
    if originAllowed prod port origin then
      hset (hset hs (lit "Access-Control-Allow-Origin") (origin.getD []))
        (lit "Access-Control-Allow-Credentials") (lit "true")
    else hs
  let hs := hset hs (lit "Vary") (lit "Origin")
  { resp with headers := hs }

def handleCorsPreflightRequest (prod : Bool) (port : Nat) (req : Request) :
    Option Resp :=
  if req.method ≠ lit "OPTIONS" then none
  else
    let hs : HeadersL := []
    let hs :=
      if originAllowed prod port req.origin then
        hset (hset hs (lit "Access-Control-Allow-Origin") (req.origin.getD []))
          (lit "Access-Control-Allow-Credentials") (lit "true")
      else hs
    let hs := hset hs (lit "Access-Control-Allow-Methods") (lit "GET, POST, PUT, DELETE, OPTIONS")
    let hs := hset hs (lit "Access-Control-Allow-Headers") (lit "Content-Type, Authorization, X-CSRF-Token")
    let hs := hset hs (lit "Access-Control-Max-Age") (lit "86400")
    let hs := hset hs (lit "Vary") (lit "Origin")
    some ⟨204, none, hs⟩

/-! ## Security headers (`src/server/middleware/security-headers.ts`) -/

def staticExts : List Str :=
  [lit ".js", lit ".css", lit ".png", lit ".jpg", lit ".jpeg", lit ".gif",
   lit ".ico", lit ".svg", lit ".woff", lit ".woff2", lit ".ttf", lit ".eot"]

def isStaticAsset (path : Str) : Bool :=
  staticExts.any (fun e => e.isSuffixOf path)

/-- A single-quote character, written via its code point. -/
def sqc : Char := Char.ofNat 39

def quoted (s : Str) : Str := sqc :: s ++ [sqc]

def cspValue (prod : Bool) : Str :=
  (List.intersperse (lit "; ")
    [ lit "default-src " ++ quoted (lit "self")
    , lit "script-src " ++ quoted (lit "self") ++ lit " "
        ++ (if prod then [] else quoted (lit "unsafe-inline") ++ lit " " ++ quoted (lit "unsafe-eval"))
    , lit "style-src " ++ quoted (lit "self") ++ lit " "
        ++ (if prod then [] else quoted (lit "unsafe-inline"))
    , lit "img-src " ++ quoted (lit "self") ++ lit " data: https:"
    , lit "font-src " ++ quoted (lit "self")
    , lit "connect-src " ++ quoted (lit "self")
    , lit "frame-ancestors " ++ quoted (lit "none")
    , lit "base-uri " ++ quoted (lit "self")
    , lit "form-action " ++ quoted (lit "self") ]).flatten

def applySecurityHeaders (prod : Bool) (resp : Resp) (req : Request) : Resp :=
  let ct := (hget resp.headers (lit "Content-Type")).getD []
  let hs := resp.headers
  let hs := hset hs (lit "X-Content-Type-Options") (lit "nosniff")
  let hs := hset hs (lit "X-Frame-Options") (lit "DENY")
  let hs := hset hs (lit "X-XSS-Protection") (lit "1; mode=block")
  let hs := hset hs (lit "Referrer-Policy") (lit "strict-origin-when-cross-origin")
  let hs := hset hs (lit "Permissions-Policy") (lit "geolocation=(), microphone=(), camera=()")
  let hs := hdelete hs (lit "X-Powered-By")
  let hs :=
    if hasSubstr ct (lit "text/html") then
      hset hs (lit "Content-Security-Policy") (cspValue prod)
    else hs
  let hs :=
    if prod then
      hset hs (lit "Strict-Transport-Security") (lit "max-age=31536000; includeSubDomains; preload")
    else hs
  let hs :=
    if (lit "/api/").isPrefixOf req.path then
      let hs :=
        if (lit "/api/users").isPrefixOf req.path ∨ (lit "/api/admin").isPrefixOf req.path then
          hset hs (lit "Cache-Control") (lit "no-store, no-cache, must-revalidate, private")
        else hset hs (lit "Cache-Control") (lit "no-store, no-cache, must-revalidate")
      hset (hset hs (lit "Pragma") (lit "no-cache")) (lit "Expires") (lit "0")
    else if isStaticAsset req.path then
      hset hs (lit "Cache-Control") (lit "public, max-age=31536000, immutable")
    else if req.path = lit "/manifest.json" then
      hset hs (lit "Cache-Control") (lit "public, max-age=3600")
    else hs
  { resp with headers := hs }

/-! ## Rate limiter (`src/server/middleware/rate-limit.ts`) -/

structure RateLimitEntry where
  count : Nat
  resetTime : Int
deriving Repr, DecidableEq

abbrev RateLimitStore := List (Str × RateLimitEntry)

/-- Identifier derivation: first comma-separated value of the
`x-forwarded-for` header, or the loopback fallback. -/
def getClientIp (req : Request) : Str :=
  match req.forwardedFor with
  | none => lit "127.0.0.1"
  | some s =>
      if s = [] then lit "127.0.0.1"
      else trimStr ((splitOnChar ',' s).getD 0 [])

structure RateLimitOptions where
  windowMs : Int := 15 * 60 * 1000
  max : Nat := 5
  message : Str := lit "Too many requests, please try again later"
deriving Repr, DecidableEq

/-- The 429 response built in the rejection branch: `Math.ceil` of the
millisecond remainder in seconds for `Retry-After`, the configured maximum,
a zero remaining budget, and the stored reset time. -/
def rlRejectResp (opts : RateLimitOptions) (resetTime now : Int) : Resp :=
  ⟨429,
    some (lit "\x7b\"error\":\"" ++ opts.message ++ lit "\"\x7d"),
    [(lit "content-type", lit "application/json"),
     (lit "retry-after", natToStr (((resetTime - now).toNat + 999) / 1000)),
     (lit "x-ratelimit-limit", natToStr opts.max),
     (lit "x-ratelimit-remaining", lit "0"),
     (lit "x-ratelimit-reset", intToStr resetTime)]⟩

/-- The checker returned by `createRateLimiter`, as a state transition on
the rate-limit store. `nodeEnv` and `bunEnv` are `process.env.NODE_ENV` and
`process.env.BUN_ENV`, read at request time. -/
def rateLimitCheck (opts : RateLimitOptions) (nodeEnv bunEnv : Option Str)
    (store : RateLimitStore) (now : Int) (req : Request) :
    Option Resp × RateLimitStore :=
  if nodeEnv = some (lit "test") ∨ bunEnv = some (lit "test") then (none, store)
  else
    let ip := getClientIp req
    let resetTime := now + opts.windowMs
    match alGet store ip with
    | none => (none, alSet store ip ⟨1, resetTime⟩)
    | some entry =>
        if entry.resetTime < now then (none, alSet store ip ⟨1, resetTime⟩)
        else
          let c := entry.count + 1
          let store1 := alSet store ip ⟨c, entry.resetTime⟩
          if c > opts.max then (some (rlRejectResp opts entry.resetTime now), store1)
          else (none, store1)

def authRateLimiterOpts : RateLimitOptions :=
  { windowMs := 15 * 60 * 1000, max := 5,
    message := lit "Too many authentication attempts, please try again later" }

def strictAuthRateLimiterOpts : RateLimitOptions :=
  { windowMs := 60 * 60 * 1000, max := 3,
    message := lit "Too many failed login attempts, please try again later" }

/-! ## Request pipeline (`src/server/index.ts`) -/

structure Env where
  prod : Bool
  isDev : Bool
  port : Nat
  serverStartTime : Int

/-- The `wrapResponse` helper of the server's `fetch` function: CORS
decoration on API paths, the development-only start-time header, then
security headers on every response. -/
def wrapResponse (e : Env) (req : Request) (resp : Resp) : Resp :=
  let r :=
    if (lit "/api").isPrefixOf req.path then
      applyCorsHeaders e.prod e.port resp req.origin
    else resp
  let r :=
    if e.isDev ∧ (lit "/api").isPrefixOf req.path then
      { r with headers := hset r.headers (lit "X-Server-Start-Time") (intToStr e.serverStartTime) }
    else r
  applySecurityHeaders e.prod r req

/-- The server's `fetch` function. Everything after the CORS-preflight and
CSRF gates (static files, health, users and auth route dispatch, the SPA
catch-all and the 404) is abstracted as the `handler` parameter, which may
read and update the CSRF store; every branch of the source wraps its
response with `wrapResponse`. -/
def fetchModel (e : Env) (now : Int)
    (handler : CsrfStore → Request → Resp × CsrfStore)
    (store : CsrfStore) (req : Request) : Resp × CsrfStore :=
  if (lit "/api").isPrefixOf req.path then
    match handleCorsPreflightRequest e.prod e.port req with
    | some pre => (wrapResponse e req pre, store)
    | none =>
        match applyCsrfProtection store now req with
        | (some err, store1) => (wrapResponse e req err, store1)
        | (none, store1) =>
            let hr := handler store1 req
            (wrapResponse e req hr.1, hr.2)
  else
    let hr := handler store req
    (wrapResponse e req hr.1, hr.2)

/-- The `error` handler of `Bun.serve` (`src/server/index.ts`): a bare 500
response returned to the transport without passing through
`wrapResponse`. -/
def errorHandlerResponse : Resp :=
  ⟨500, some (lit "Internal Server Error"), []⟩

/-- The `POST /api/auth/logout` handler (`src/server/routes/auth.ts`). -/
def logoutPOST (store : CsrfStore) (req : Request) : Resp × CsrfStore :=
  let cookies := parseCookies (req.cookieHeader.getD [])
  let csrfCookie := alGet cookies (lit "csrf-token")
  let store1 :=
    match csrfCookie with
    | some c => if c ≠ [] then clearCsrfToken store c else store
    | none => store
  (⟨200, some (lit "\x7b\"message\":\"Logged out successfully\"\x7d"),
      happend [] (lit "Set-Cookie") (lit "csrf-token=; HttpOnly; SameSite=Strict; Path=/; Max-Age=0")⟩,
   store1)

/-- The route dispatch of `src/server/index.ts` restricted to the logout
route; every other route (which would involve the database layer) falls
through to the pipeline's 404 response. -/
def logoutRouteHandler (store : CsrfStore) (req : Request) : Resp × CsrfStore :=
  if req.path = lit "/api/auth/logout" ∧ req.method = lit "POST" then
    logoutPOST store req
  else (⟨404, some (lit "Not Found"), []⟩, store)

/-! ## JSON values and the token module (`src/lib/crypto.ts`) -/

inductive Json where
  | null
  | bool (b : Bool)
  | num (n : Int)
  | str (s : Str)
  | arr (elems : List Json)
  | obj (members : List (Str × Json))

/-- The platform primitives `src/lib/crypto.ts` uses: `Buffer` base64url
encoding and (lenient, non-throwing) decoding, `JSON.stringify` and
`JSON.parse` (`none` models a parse exception), and the composite
`createHash("sha256").update(s).digest("base64url")`. The theorems
constrain these only by their documented contracts. -/
structure JwtPlatform where
  b64url : Str → Str
  b64urlDecode : Str → Str
  hash : Str → Str
  jsonStringify : Json → Str
  jsonParse : Str → Option Json

def jwtHeaderJson : Json :=
  Json.obj [(lit "alg", Json.str (lit "HS256")), (lit "typ", Json.str (lit "JWT"))]

/-- `JWT_EXPIRY` (24 hours in seconds). -/
def jwtExpiry : Int := 60 * 60 * 24

/-- The object literal `{...payload, iat: now, exp: now + JWT_EXPIRY}`:
spreading keeps the original insertion order and overrides existing `iat`
and `exp` members. -/
def tokenPayload (payload : List (Str × Json)) (nowSec : Int) : Json :=
  Json.obj (alSet (alSet payload (lit "iat") (Json.num nowSec))
    (lit "exp") (Json.num (nowSec + jwtExpiry)))

/-- `generateToken`: `nowSec` is `Math.floor(Date.now() / 1000)`. -/
def generateToken (P : JwtPlatform) (secret : Str) (nowSec : Int)
    (payload : List (Str × Json)) : Str :=
  let encodedHeader := P.b64url (P.jsonStringify jwtHeaderJson)
  let encodedPayload := P.b64url (P.jsonStringify (tokenPayload payload nowSec))
  let signature := P.hash (encodedHeader ++ '.' :: encodedPayload ++ secret)
  encodedHeader ++ '.' :: encodedPayload ++ '.' :: signature

def jsTruthy : Json → Bool
  | Json.null => false
  | Json.bool b => b
  | Json.num n => n ≠ 0
  | Json.str s => s ≠ []
  | Json.arr _ => true
  | Json.obj _ => true

def jsonMember : Json → Str → Option Json
  | Json.obj ms, k => alGet ms k
  | _, _ => none

/-- JS `payload.exp < now` for the values the theorems exercise; a
non-numeric comparison is modelled as false (the NaN behaviour of a
non-numeric string). -/
def jsLtInt : Json → Int → Bool
  | Json.num m, n => m < n
  | _, _ => false

/-- `verifyToken`: destructuring `token.split(".")` takes the first three
elements; a falsy (`undefined` or empty) element fails the structure
check. The `try/catch` shows up as the `Option` result of `jsonParse`. -/
def verifyToken (P : JwtPlatform) (secret : Str) (nowSec : Int)
    (token : Str) : Option Json :=
  let parts := splitOnChar '.' token
  let encodedHeader := parts.getD 0 []
  let encodedPayload := parts.getD 1 []
  let signature := parts.getD 2 []
  if encodedHeader = [] ∨ encodedPayload = [] ∨ signature = [] then none
  else
    let testSignature := P.hash (encodedHeader ++ '.' :: encodedPayload ++ secret)
    if signature ≠ testSignature then none
    else
      match P.jsonParse (P.b64urlDecode encodedPayload) with
      | none => none
      | some payload =>
          match jsonMember payload (lit "exp") with
          | some e => if jsTruthy e && jsLtInt e nowSec then none else some payload
          | none => some payload

/-- A well-formed base64url-ish token segment: non-empty and free of the
separator. -/
def SegOK (s : Str) : Prop := s ≠ [] ∧ '.' ∉ s

instance (s : Str) : Decidable (SegOK s) :=
  inferInstanceAs (Decidable (s ≠ [] ∧ '.' ∉ s))

theorem splitOnChar_not_mem (sep : Char) (s : Str) (h : sep ∉ s) :
    splitOnChar sep s = [s] := by
  induction s with
  | nil => simp [splitOnChar]
  | cons c t ih =>
      have hc : ¬ c = sep := fun hc => h (by simp [hc])
      have ht : sep ∉ t := fun hm => h (by simp [hm])
      simp [splitOnChar, hc, ih ht]

theorem splitOnChar_append (sep : Char) (a b : Str) (h : sep ∉ a) :
    splitOnChar sep (a ++ sep :: b) = a :: splitOnChar sep b := by
  induction a with
  | nil => simp [splitOnChar]
  | cons c t ih =>
      have hc : ¬ c = sep := fun hc => h (by simp [hc])
      have ht : sep ∉ t := fun hm => h (by simp [hm])
      simp [splitOnChar, hc, ih ht]

/-- The three dot-joined segments of a generated token split back into
exactly those segments. -/
theorem splitOnChar_token (eh ep sig : Str)
    (hh : '.' ∉ eh) (hp : '.' ∉ ep) (hs : '.' ∉ sig) :
    splitOnChar '.' (eh ++ '.' :: ep ++ '.' :: sig) = [eh, ep, sig] := by
  have h1 : eh ++ '.' :: ep ++ '.' :: sig = eh ++ '.' :: (ep ++ '.' :: sig) := by
    simp
  rw [h1, splitOnChar_append '.' eh (ep ++ '.' :: sig) hh,
      splitOnChar_append '.' ep sig hp,
      splitOnChar_not_mem '.' sig hs]

theorem splitOnChar_token3 (eh ep sig : Str)
    (hh : '.' ∉ eh) (hp : '.' ∉ ep) (hs : '.' ∉ sig) :
    splitOnChar '.' (eh ++ '.' :: (ep ++ '.' :: sig)) = [eh, ep, sig] := by
  rw [splitOnChar_append '.' eh (ep ++ '.' :: sig) hh,
      splitOnChar_append '.' ep sig hp,
      splitOnChar_not_mem '.' sig hs]

/-- Claim C2: for every claims record (any JSON object, including the empty
object), verifying the token produced by issuing those claims — evaluated
before the 24-hour expiry and under the same server secret — succeeds and
returns exactly the input claims with the `iat` and `exp` members set. The
platform hypotheses are the documented contracts of base64url (non-empty,
dot-free, decodable output), of the digest (non-empty dot-free output), and
of `JSON.parse ∘ JSON.stringify` at the serialized payload. -/
theorem token_round_trip (P : JwtPlatform) (secret : Str)
    (nowSec nowSec2 : Int) (payload : List (Str × Json))
    (hh : SegOK (P.b64url (P.jsonStringify jwtHeaderJson)))
    (hp : SegOK (P.b64url (P.jsonStringify (tokenPayload payload nowSec))))
    (hs : SegOK (P.hash (P.b64url (P.jsonStringify jwtHeaderJson) ++ '.' ::
        (P.b64url (P.jsonStringify (tokenPayload payload nowSec)) ++ secret))))
    (hdec : P.b64urlDecode (P.b64url (P.jsonStringify (tokenPayload payload nowSec)))
        = P.jsonStringify (tokenPayload payload nowSec))
    (hjson : P.jsonParse (P.jsonStringify (tokenPayload payload nowSec))
        = some (tokenPayload payload nowSec))
    (hexp : nowSec2 ≤ nowSec + jwtExpiry) :
    verifyToken P secret nowSec2 (generateToken P secret nowSec payload)
      = some (tokenPayload payload nowSec) := by
  have hlt : ¬ (nowSec + jwtExpiry < nowSec2) := not_lt.mpr hexp
  simp only [generateToken, verifyToken, List.cons_append, List.append_assoc]
  rw [splitOnChar_token3 _ _ _ hh.2 hp.2 hs.2]
  simp only [List.getD, List.get?, Option.getD_some]
  rw [if_neg (by push_neg; exact ⟨hh.1, hp.1, hs.1⟩)]
  rw [if_neg (fun hne => hne rfl)]
  rw [hdec, hjson]
  simp only [tokenPayload, jsonMember, alGet_alSet_same, jsTruthy, jsLtInt]
  simp [hlt]

/-! ### A concrete platform used to witness the token theorems -/

def escJsonChar (c : Char) : Str :=
  if c = '"' ∨ c = '\\' then ['\\', c] else [c]

def escapeJsonStr (s : Str) : Str :=
  s.foldr (fun c acc => escJsonChar c ++ acc) []

def jsonQuote (s : Str) : Str := '"' :: escapeJsonStr s ++ ['"']

mutual
def printJsonF : Nat → Json → Str
  | 0, _ => []
  | _ + 1, Json.null => lit "null"
  | _ + 1, Json.bool true => lit "true"
  | _ + 1, Json.bool false => lit "false"
  | _ + 1, Json.num n => intToStr n
  | _ + 1, Json.str s => jsonQuote s
  | fuel + 1, Json.arr xs => '[' :: printJsonArrF fuel xs ++ [']']
  | fuel + 1, Json.obj ms => '{' :: printJsonObjF fuel ms ++ ['}']
def printJsonArrF : Nat → List Json → Str
  | 0, _ => []
  | _ + 1, [] => []
  | fuel + 1, [x] => printJsonF fuel x
  | fuel + 1, x :: y :: t => printJsonF fuel x ++ ',' :: printJsonArrF fuel (y :: t)
def printJsonObjF : Nat → List (Str × Json) → Str
  | 0, _ => []
  | _ + 1, [] => []
  | fuel + 1, [kv] => jsonQuote kv.1 ++ ':' :: printJsonF fuel kv.2
  | fuel + 1, kv :: k2 :: t =>
      (jsonQuote kv.1 ++ ':' :: printJsonF fuel kv.2) ++ ',' :: printJsonObjF fuel (k2 :: t)
end

def stripPre (pre s : Str) : Option Str :=
  if pre.isPrefixOf s then some (s.drop pre.length) else none

def isDigitChar (c : Char) : Bool := 48 ≤ c.toNat ∧ c.toNat ≤ 57

def parseDigits (s : Str) : Option (Nat × Str) :=
  let ds := s.takeWhile isDigitChar
  if ds = [] then none
  else some (ds.foldl (fun a c => a * 10 + (c.toNat - 48)) 0, s.drop ds.length)

def parseStrBody : Nat → Str → Option (Str × Str)
  | 0, _ => none
  | _ + 1, [] => none
  | fuel + 1, c :: cs =>
      if c = '"' then some ([], cs)
      else if c = '\\' then
        match cs with
        | [] => none
        | e :: cs2 =>
            match parseStrBody fuel cs2 with
            | some (content, rest) => some (e :: content, rest)
            | none => none
      else
        match parseStrBody fuel cs with
        | some (content, rest) => some (c :: content, rest)
        | none => none

mutual
def parseJsonF : Nat → Str → Option (Json × Str)
  | 0, _ => none
  | _ + 1, [] => none
  | fuel + 1, c :: cs =>
      if c = 'n' then (stripPre (lit "ull") cs).map (fun r => (Json.null, r))
      else if c = 't' then (stripPre (lit "rue") cs).map (fun r => (Json.bool true, r))
      else if c = 'f' then (stripPre (lit "alse") cs).map (fun r => (Json.bool false, r))
      else if c = '-' then (parseDigits cs).map (fun p => (Json.num (-(p.1 : Int)), p.2))
      else if isDigitChar c then (parseDigits (c :: cs)).map (fun p => (Json.num (p.1 : Int), p.2))
      else if c = '"' then (parseStrBody (fuel + 1) cs).map (fun p => (Json.str p.1, p.2))
      else if c = '[' then
        match cs with
        | ']' :: r => some (Json.arr [], r)
        | _ => (parseArrF fuel cs).map (fun p => (Json.arr p.1, p.2))
      else if c = '{' then
        match cs with
        | '}' :: r => some (Json.obj [], r)
        | _ => (parseObjF fuel cs).map (fun p => (Json.obj p.1, p.2))
      else none
def parseArrF : Nat → Str → Option (List Json × Str)
  | 0, _ => none
  | fuel + 1, s =>
      match parseJsonF fuel s with
      | none => none
      | some (v, rest) =>
          match rest with
          | ',' :: r2 => (parseArrF fuel r2).map (fun p => (v :: p.1, p.2))
          | ']' :: r2 => some ([v], r2)
          | _ => none
def parseObjF : Nat → Str → Option (List (Str × Json) × Str)
  | 0, _ => none
  | fuel + 1, s =>
      match s with
      | '"' :: cs =>
          match parseStrBody fuel cs with
          | none => none
          | some (k, rest) =>
              match rest with
              | ':' :: r2 =>
                  match parseJsonF fuel r2 with
                  | none => none
                  | some (v, r3) =>
                      match r3 with
                      | ',' :: r4 => (parseObjF fuel r4).map (fun p => ((k, v) :: p.1, p.2))
                      | '}' :: r4 => some ([(k, v)], r4)
                      | _ => none
              | _ => none
      | _ => none
end

def parseJsonTop (s : Str) : Option Json :=
  match parseJsonF 1000000 s with
  | some (v, []) => some v
  | _ => none

/-- A concrete platform instance: identity base64url transport, a constant
digest, and the naive printer and parser above. It satisfies every contract
hypothesis of the round-trip theorem at the witnessed inputs. -/
def rtPlatform : JwtPlatform :=
  { b64url := fun s => s
    b64urlDecode := fun s => s
    hash := fun _ => lit "h"
    jsonStringify := printJsonF 1000
    jsonParse := parseJsonTop }

/-- Witness for claim C2: the round-trip theorem applied to the empty claims
object at issue time 0, verified at the expiry boundary, on the concrete
platform above. -/
theorem token_round_trip_witness :
    verifyToken rtPlatform (lit "s") 86400
      (generateToken rtPlatform (lit "s") 0 []) = some (tokenPayload [] 0) :=
  token_round_trip rtPlatform (lit "s") 0 86400 []
    (by decide) (by decide) (by decide) rfl (by rfl) (by decide)

theorem set_ne_of_ne (l : Str) (i : Nat) (c : Char) (h : i < l.length)
    (hne : c ≠ l.get ⟨i, h⟩) : l.set i c ≠ l := by
  intro hy
  have h1 : (l.set i c)[i]? = some c := List.getElem?_set_eq_of_lt c h
  rw [hy] at h1
  have h2 : l[i]? = some (l.get ⟨i, h⟩) := by
    simp [List.getElem?_eq_getElem h, List.get_eq_getElem]
  rw [h1] at h2
  exact hne (Option.some.inj h2)

theorem not_mem_set (l : Str) (i : Nat) (c x : Char) (hx : x ∉ l) (hxc : x ≠ c) :
    x ∉ l.set i c := by
  intro hmem
  rcases List.mem_or_eq_of_mem_set hmem with h | h
  · exact hx h
  · exact hxc h

theorem set_ne_nil (l : Str) (i : Nat) (c : Char) (h : l ≠ []) : l.set i c ≠ [] := by
  cases l with
  | nil => exact absurd rfl h
  | cons a t => cases i <;> simp [List.set]

theorem SegOK_set (l : Str) (i : Nat) (c : Char) (h : SegOK l) (hc : c ≠ '.') :
    SegOK (l.set i c) :=
  ⟨set_ne_nil l i c h.1, not_mem_set l i c '.' h.2 (Ne.symm hc)⟩

/-- `verifyToken` rejects a three-segment token whose third segment is not
the recomputed digest. -/
theorem verifyToken_sig_mismatch (P : JwtPlatform) (secret : Str) (nowSec : Int)
    (a b c : Str) (ha : SegOK a) (hb : SegOK b) (hc : SegOK c)
    (hmm : c ≠ P.hash (a ++ '.' :: (b ++ secret))) :
    verifyToken P secret nowSec (a ++ '.' :: (b ++ '.' :: c)) = none := by
  simp only [verifyToken, List.cons_append, List.append_assoc]
  rw [splitOnChar_token3 _ _ _ ha.2 hb.2 hc.2]
  simp only [List.getD, List.get?, Option.getD_some]
  rw [if_neg (by push_neg; exact ⟨ha.1, hb.1, hc.1⟩)]
  rw [if_pos hmm]

/-- `verifyToken` rejects a token with only two dot-separated segments: the
destructured third element is `undefined`, which fails the structure
check. -/
theorem verifyToken_two_segments (P : JwtPlatform) (secret : Str) (nowSec : Int)
    (a b : Str) (ha : '.' ∉ a) (hb : '.' ∉ b) :
    verifyToken P secret nowSec (a ++ '.' :: b) = none := by
  simp only [verifyToken, List.cons_append, List.append_assoc]
  rw [splitOnChar_append '.' a b ha, splitOnChar_not_mem '.' b hb]
  simp [List.getD, List.get?]

theorem splitOnChar_token4 (a b c d : Str)
    (ha : '.' ∉ a) (hb : '.' ∉ b) (hc : '.' ∉ c) (hd : '.' ∉ d) :
    splitOnChar '.' (a ++ '.' :: (b ++ '.' :: (c ++ '.' :: d))) = [a, b, c, d] := by
  rw [splitOnChar_append '.' a _ ha, splitOnChar_append '.' b _ hb,
      splitOnChar_append '.' c d hc, splitOnChar_not_mem '.' d hd]

/-- `verifyToken` on a four-segment token: the destructuring takes the
first three elements of the split and ignores the fourth, so the token is
rejected when the third segment differs from the digest recomputed over the
first two (the structure check catches the empty-segment cases first). -/
theorem verifyToken_four_segments (P : JwtPlatform) (secret : Str) (nowSec : Int)
    (a b c d : Str) (ha : '.' ∉ a) (hb : '.' ∉ b) (hc : '.' ∉ c) (hd : '.' ∉ d)
    (hmm : c ≠ P.hash (a ++ '.' :: (b ++ secret))) :
    verifyToken P secret nowSec (a ++ '.' :: (b ++ '.' :: (c ++ '.' :: d))) = none := by
  simp only [verifyToken, List.cons_append, List.append_assoc]
  rw [splitOnChar_token4 _ _ _ _ ha hb hc hd]
  simp only [List.getD, List.get?, Option.getD_some]
  by_cases he : a = [] ∨ b = [] ∨ c = []
  · rw [if_pos he]
  · rw [if_neg he, if_pos hmm]

/-- Claim C3: for every issued token, changing any single character of any
of its three dot-separated segments — including replacing it by the
separator itself — makes `verifyToken` return the uniform invalid result
`none`, at every evaluation time. Two ideal-hash facts are assumed, both
standard idealizations of SHA-256: the digest has no second preimage at the
token's signing input (`hc2`), and no digest coincides with the payload
segment or any suffix of it (`hfrag`; a digest never equals a string fixed
in advance). `hfrag` is used when a separator is written into the header or
payload segment, which re-segments the token and moves a payload fragment
into the signature slot; a separator written into the signature segment
leaves a strict prefix of the digest there, which mismatches by length
alone. The first conjunct records that the issued token is exactly the
three dot-joined segments being tampered with. -/
theorem token_tamper_rejected (P : JwtPlatform) (secret : Str)
    (nowSec nowSec2 : Int) (payload : List (Str × Json)) (eh ep sig : Str)
    (heh : eh = P.b64url (P.jsonStringify jwtHeaderJson))
    (hep : ep = P.b64url (P.jsonStringify (tokenPayload payload nowSec)))
    (hsig : sig = P.hash (eh ++ '.' :: (ep ++ secret)))
    (hh : SegOK eh) (hp : SegOK ep) (hs : SegOK sig)
    (hc2 : ∀ x : Str, x ≠ eh ++ '.' :: (ep ++ secret) →
      P.hash x ≠ P.hash (eh ++ '.' :: (ep ++ secret)))
    (hfrag : ∀ (x : Str) (j : Nat), P.hash x ≠ ep.drop j) :
    generateToken P secret nowSec payload = eh ++ '.' :: (ep ++ '.' :: sig)
    ∧ (∀ (i : Nat) (hi : i < eh.length) (c : Char), c ≠ eh.get ⟨i, hi⟩ →
        verifyToken P secret nowSec2 (eh.set i c ++ '.' :: (ep ++ '.' :: sig)) = none)
    ∧ (∀ (i : Nat) (hi : i < ep.length) (c : Char), c ≠ ep.get ⟨i, hi⟩ →
        verifyToken P secret nowSec2 (eh ++ '.' :: (ep.set i c ++ '.' :: sig)) = none)
    ∧ (∀ (i : Nat) (hi : i < sig.length) (c : Char), c ≠ sig.get ⟨i, hi⟩ →
        verifyToken P secret nowSec2 (eh ++ '.' :: (ep ++ '.' :: sig.set i c)) = none) := by
  refine ⟨?_, ?_, ?_, ?_⟩
  · subst heh hep hsig
    simp [generateToken]
  · intro i hi c hne
    by_cases hdot : c = '.'
    · subst hdot
      rw [List.set_eq_take_cons_drop '.' hi]
      have hassoc : (eh.take i ++ '.' :: eh.drop (i + 1)) ++ '.' :: (ep ++ '.' :: sig)
          = eh.take i ++ '.' :: (eh.drop (i + 1) ++ '.' :: (ep ++ '.' :: sig)) := by
        simp
      rw [hassoc]
      refine verifyToken_four_segments P secret nowSec2 _ _ _ _
        (fun hm => hh.2 (List.take_subset _ _ hm))
        (fun hm => hh.2 (List.drop_subset _ _ hm))
        hp.2 hs.2 ?_
      intro heq
      exact hfrag (eh.take i ++ '.' :: (eh.drop (i + 1) ++ secret)) 0
        (by rw [List.drop_zero]; exact heq.symm)
    · apply verifyToken_sig_mismatch P secret nowSec2 _ _ _
        (SegOK_set eh i c hh hdot) hp hs
      have hxne : eh.set i c ++ '.' :: (ep ++ secret) ≠ eh ++ '.' :: (ep ++ secret) := by
        intro heq
        have hl : (eh.set i c).length = eh.length := by simp
        have := (List.append_inj heq hl).1
        exact set_ne_of_ne eh i c hi hne this
      rw [hsig]
      exact (hc2 _ hxne).symm
  · intro i hi c hne
    by_cases hdot : c = '.'
    · subst hdot
      rw [List.set_eq_take_cons_drop '.' hi]
      have hassoc : eh ++ '.' :: ((ep.take i ++ '.' :: ep.drop (i + 1)) ++ '.' :: sig)
          = eh ++ '.' :: (ep.take i ++ '.' :: (ep.drop (i + 1) ++ '.' :: sig)) := by
        simp
      rw [hassoc]
      refine verifyToken_four_segments P secret nowSec2 _ _ _ _
        hh.2
        (fun hm => hp.2 (List.take_subset _ _ hm))
        (fun hm => hp.2 (List.drop_subset _ _ hm))
        hs.2 ?_
      intro heq
      exact hfrag (eh ++ '.' :: (ep.take i ++ secret)) (i + 1) heq.symm
    · apply verifyToken_sig_mismatch P secret nowSec2 _ _ _
        hh (SegOK_set ep i c hp hdot) hs
      have hxne : eh ++ '.' :: (ep.set i c ++ secret) ≠ eh ++ '.' :: (ep ++ secret) := by
        intro heq
        have h1 := List.append_cancel_left heq
        have h2 : ep.set i c ++ secret = ep ++ secret := by
          injection h1
        have hl : (ep.set i c).length = ep.length := by simp
        have := (List.append_inj h2 hl).1
        exact set_ne_of_ne ep i c hi hne this
      rw [hsig]
      exact (hc2 _ hxne).symm
  · intro i hi c hne
    by_cases hdot : c = '.'
    · subst hdot
      rw [List.set_eq_take_cons_drop '.' hi]
      refine verifyToken_four_segments P secret nowSec2 _ _ _ _
        hh.2 hp.2
        (fun hm => hs.2 (List.take_subset _ _ hm))
        (fun hm => hs.2 (List.drop_subset _ _ hm)) ?_
      intro heq
      rw [← hsig] at heq
      have hlen := congrArg List.length heq
      rw [List.length_take] at hlen
      omega
    · apply verifyToken_sig_mismatch P secret nowSec2 _ _ _
        hh hp (SegOK_set sig i c hs hdot)
      rw [← hsig]
      exact fun heq => set_ne_of_ne sig i c hi hne heq

/-! ### Witness platform for the tamper-rejection theorem -/

def tEh : Str := printJsonF 1000 jwtHeaderJson

def tEp : Str := printJsonF 1000 (tokenPayload [] 0)

def tInput : Str := tEh ++ '.' :: (tEp ++ lit "s")

/-- A platform whose digest is collision-free against the witnessed signing
input: every other input hashes to a value with a distinct head. -/
def tamperPlatform : JwtPlatform :=
  { b64url := fun s => s
    b64urlDecode := fun s => s
    hash := fun s => if s = tInput then lit "h" else '#' :: s
    jsonStringify := printJsonF 1000
    jsonParse := parseJsonTop }

theorem tamperPlatform_second_preimage : ∀ x : Str, x ≠ tInput →
    tamperPlatform.hash x ≠ tamperPlatform.hash tInput := by
  intro x hx heq
  have h1 : tamperPlatform.hash x = '#' :: x := by simp [tamperPlatform, hx]
  have h2 : tamperPlatform.hash tInput = lit "h" := by simp [tamperPlatform]
  rw [h1, h2] at heq
  have hh : ('#' :: x).headD ' ' = (lit "h").headD ' ' := by rw [heq]
  simp [lit] at hh

theorem tamperPlatform_no_fragment : ∀ (x : Str) (j : Nat),
    tamperPlatform.hash x ≠ tEp.drop j := by
  intro x j heq
  by_cases hx : x = tInput
  · have h2 : tamperPlatform.hash x = lit "h" := by simp [tamperPlatform, hx]
    rw [h2] at heq
    have hm : 'h' ∈ tEp.drop j := by rw [← heq]; simp [lit]
    exact absurd (List.drop_subset _ _ hm) (by decide)
  · have h1 : tamperPlatform.hash x = '#' :: x := by simp [tamperPlatform, hx]
    rw [h1] at heq
    have hm : '#' ∈ tEp.drop j := by rw [← heq]; simp
    exact absurd (List.drop_subset _ _ hm) (by decide)

def tSig : Str := lit "h"

/-- Witness for claim C3: on the concrete platform, flipping the first
character of the header segment of the token issued for the empty claims
object makes verification return `none`, and so does overwriting the second
character of the payload segment with the separator itself. -/
theorem token_tamper_rejected_witness :
    verifyToken tamperPlatform (lit "s") 86400
      (tEh.set 0 'X' ++ '.' :: (tEp ++ '.' :: tSig)) = none
    ∧ verifyToken tamperPlatform (lit "s") 86400
      (tEh ++ '.' :: (tEp.set 1 '.' ++ '.' :: tSig)) = none :=
  ⟨((token_tamper_rejected tamperPlatform (lit "s") 0 86400 [] tEh tEp tSig
      rfl rfl (by decide) (by decide) (by decide) (by decide)
      tamperPlatform_second_preimage tamperPlatform_no_fragment).2.1)
      0 (by decide) 'X' (by decide),
   ((token_tamper_rejected tamperPlatform (lit "s") 0 86400 [] tEh tEp tSig
      rfl rfl (by decide) (by decide) (by decide) (by decide)
      tamperPlatform_second_preimage tamperPlatform_no_fragment).2.2.1)
      1 (by decide) '.' (by decide)⟩

/-! ## Pipeline lemmas -/

theorem applySecurityHeaders_status (prod : Bool) (resp : Resp) (req : Request) :
    (applySecurityHeaders prod resp req).status = resp.status := rfl

theorem applySecurityHeaders_body (prod : Bool) (resp : Resp) (req : Request) :
    (applySecurityHeaders prod resp req).body = resp.body := rfl

theorem wrapResponse_status (e : Env) (req : Request) (resp : Resp) :
    (wrapResponse e req resp).status = resp.status := by
  unfold wrapResponse
  split <;> split <;> rfl

theorem wrapResponse_body (e : Env) (req : Request) (resp : Resp) :
    (wrapResponse e req resp).body = resp.body := by
  unfold wrapResponse
  split <;> split <;> rfl

/-- All the conditions under which `validateCsrfToken` reports failure. -/
theorem validateCsrfToken_false (store : CsrfStore) (now : Int)
    (cookie token : Option Str)
    (h : cookie = none
      ∨ token = none
      ∨ (∀ cv, cookie = some cv → alGet store cv = none)
      ∨ (∀ cv en, cookie = some cv → alGet store cv = some en → en.expires < now)
      ∨ (∀ cv en t, cookie = some cv → alGet store cv = some en → token = some t →
          en.token ≠ t)) :
    (validateCsrfToken store now cookie token).1 = false := by
  unfold validateCsrfToken
  by_cases hf : (jsStrFalsy cookie ∨ jsStrFalsy token : Prop)
  · rw [if_pos hf]
  · rw [if_neg hf]
    push_neg at hf
    obtain ⟨hfc, hft⟩ := hf
    match hcv : cookie with
    | none => simp [jsStrFalsy] at hfc
    | some cv =>
      simp only [Option.getD_some]
      match halg : alGet store cv with
      | none => simp [halg]
      | some en =>
        simp only [halg]
        by_cases hexp : en.expires < now
        · simp [hexp]
        · simp only [if_neg hexp]
          match hct : token with
          | none => simp [jsStrFalsy] at hft
          | some t =>
            rcases h with h | h | h | h | h
            · exact absurd h (by simp)
            · exact absurd h (by simp)
            · exact absurd (h cv rfl) (by simp [halg])
            · exact absurd (h cv en rfl halg) hexp
            · simp [h cv en t rfl halg rfl]

/-- The CSRF cookie as extracted by `applyCsrfProtection`:
`parseCookies(...)["csrf-token"] || null`. -/
def csrfCookieOf (req : Request) : Option Str :=
  orNull (alGet (parseCookies (req.cookieHeader.getD [])) (lit "csrf-token"))

/-- Claim C1: a mutating request (POST/PUT/DELETE) to a non-exempt `/api`
path for which any of the five CSRF failure conditions holds — missing
cookie, missing header, no store entry, expired entry, or token mismatch —
is short-circuited by the pipeline with a 403 response carrying the JSON
body `{"error": "CSRF token validation failed"}`, and the route handler is
never consulted (the final conjunct: the outcome is the same for every
handler). -/
theorem csrf_fail_closed (e : Env) (now : Int)
    (handler : CsrfStore → Request → Resp × CsrfStore)
    (store : CsrfStore) (req : Request)
    (hm : req.method = lit "POST" ∨ req.method = lit "PUT" ∨ req.method = lit "DELETE")
    (hapi : (lit "/api").isPrefixOf req.path = true)
    (hex1 : req.path ≠ lit "/api/auth/login")
    (hex2 : req.path ≠ lit "/api/auth/register")
    (hex3 : req.path ≠ lit "/api/health")
    (hfail : csrfCookieOf req = none
      ∨ req.csrfHeader = none
      ∨ (∀ cv, csrfCookieOf req = some cv → alGet store cv = none)
      ∨ (∀ cv en, csrfCookieOf req = some cv → alGet store cv = some en →
          en.expires < now)
      ∨ (∀ cv en t, csrfCookieOf req = some cv → alGet store cv = some en →
          req.csrfHeader = some t → en.token ≠ t)) :
    (fetchModel e now handler store req).1.status = 403
    ∧ (fetchModel e now handler store req).1.body = some csrfRejectBody
    ∧ ∀ handler2, fetchModel e now handler2 store req
        = fetchModel e now handler store req := by
  have hmne : ¬(req.method = lit "GET" ∨ req.method = lit "HEAD" ∨ req.method = lit "OPTIONS") := by
    rcases hm with h | h | h <;> rw [h] <;> decide
  have hreq : requiresCsrfProtection req = true := by
    unfold requiresCsrfProtection
    rw [if_neg hmne, if_neg (by push_neg; exact ⟨hex1, hex2⟩), if_neg hex3]
  have hpre : handleCorsPreflightRequest e.prod e.port req = none := by
    unfold handleCorsPreflightRequest
    rw [if_pos]
    rcases hm with h | h | h <;> rw [h] <;> decide
  have hv : (validateCsrfToken store now (csrfCookieOf req) req.csrfHeader).1 = false :=
    validateCsrfToken_false _ _ _ _ hfail
  rcases hval : validateCsrfToken store now (csrfCookieOf req) req.csrfHeader with ⟨b, st⟩
  rw [hval] at hv
  simp only at hv
  subst hv
  have happ : applyCsrfProtection store now req =
      (some ⟨403, some csrfRejectBody, [(lit "content-type", lit "application/json")]⟩, st) := by
    unfold applyCsrfProtection
    rw [if_neg (by simp [hreq])]
    simp only [csrfCookieOf] at hval
    dsimp only
    rw [hval]
  refine ⟨?_, ?_, ?_⟩
  · simp only [fetchModel, hapi, if_true, hpre, happ]
    exact wrapResponse_status e req _
  · simp only [fetchModel, hapi, if_true, hpre, happ]
    exact wrapResponse_body e req _
  · intro handler2
    simp only [fetchModel, hapi, if_true, hpre, happ]

/-- A development-mode environment used by the pipeline witnesses. -/
def envDev : Env := { prod := false, isDev := true, port := 3000, serverStartTime := 7 }

/-- A mutating API request presenting no CSRF cookie and no CSRF header. -/
def reqPostUsers : Request :=
  { method := lit "POST", path := lit "/api/users",
    origin := some (lit "http://localhost:3000"),
    cookieHeader := none, csrfHeader := none, authHeader := none,
    forwardedFor := none }

/-- Witness for claim C1: a POST to `/api/users` with no CSRF material is
rejected with the 403 CSRF body. -/
theorem csrf_fail_closed_witness :
    (fetchModel envDev 0 logoutRouteHandler [] reqPostUsers).1.status = 403
    ∧ (fetchModel envDev 0 logoutRouteHandler [] reqPostUsers).1.body = some csrfRejectBody := by
  have h := csrf_fail_closed envDev 0 logoutRouteHandler [] reqPostUsers
      (Or.inl (by decide)) (by decide) (by decide) (by decide) (by decide)
      (Or.inl (by decide))
  exact ⟨h.1, h.2.1⟩

/-- Header names other than those the security-header middleware writes are
preserved by it. -/
theorem hget_applySecurityHeaders_other (prod : Bool) (resp : Resp) (req : Request) (m : Str)
    (h1 : lower m ≠ lower (lit "X-Content-Type-Options"))
    (h2 : lower m ≠ lower (lit "X-Frame-Options"))
    (h3 : lower m ≠ lower (lit "X-XSS-Protection"))
    (h4 : lower m ≠ lower (lit "Referrer-Policy"))
    (h5 : lower m ≠ lower (lit "Permissions-Policy"))
    (h6 : lower m ≠ lower (lit "X-Powered-By"))
    (h7 : lower m ≠ lower (lit "Content-Security-Policy"))
    (h8 : lower m ≠ lower (lit "Strict-Transport-Security"))
    (h9 : lower m ≠ lower (lit "Cache-Control"))
    (h10 : lower m ≠ lower (lit "Pragma"))
    (h11 : lower m ≠ lower (lit "Expires")) :
    hget (applySecurityHeaders prod resp req).headers m = hget resp.headers m := by
  unfold applySecurityHeaders
  dsimp only
  split_ifs <;>
    simp only [hget_hset_ne _ _ _ _ h1, hget_hset_ne _ _ _ _ h2, hget_hset_ne _ _ _ _ h3,
      hget_hset_ne _ _ _ _ h4, hget_hset_ne _ _ _ _ h5, hget_hdelete_ne _ _ _ h6,
      hget_hset_ne _ _ _ _ h7, hget_hset_ne _ _ _ _ h8, hget_hset_ne _ _ _ _ h9,
      hget_hset_ne _ _ _ _ h10, hget_hset_ne _ _ _ _ h11]

/-- Every response leaving the security-header middleware carries
`X-Content-Type-Options: nosniff`. -/
theorem hget_applySecurityHeaders_nosniff (prod : Bool) (resp : Resp) (req : Request) :
    hget (applySecurityHeaders prod resp req).headers (lit "X-Content-Type-Options")
      = some (lit "nosniff") := by
  unfold applySecurityHeaders
  dsimp only
  split_ifs <;>
    simp only [hget_hset_ne _ _ _ _ (by decide : lower (lit "X-Content-Type-Options") ≠ lower (lit "X-Frame-Options")),
      hget_hset_ne _ _ _ _ (by decide : lower (lit "X-Content-Type-Options") ≠ lower (lit "X-XSS-Protection")),
      hget_hset_ne _ _ _ _ (by decide : lower (lit "X-Content-Type-Options") ≠ lower (lit "Referrer-Policy")),
      hget_hset_ne _ _ _ _ (by decide : lower (lit "X-Content-Type-Options") ≠ lower (lit "Permissions-Policy")),
      hget_hdelete_ne _ _ _ (by decide : lower (lit "X-Content-Type-Options") ≠ lower (lit "X-Powered-By")),
      hget_hset_ne _ _ _ _ (by decide : lower (lit "X-Content-Type-Options") ≠ lower (lit "Content-Security-Policy")),
      hget_hset_ne _ _ _ _ (by decide : lower (lit "X-Content-Type-Options") ≠ lower (lit "Strict-Transport-Security")),
      hget_hset_ne _ _ _ _ (by decide : lower (lit "X-Content-Type-Options") ≠ lower (lit "Cache-Control")),
      hget_hset_ne _ _ _ _ (by decide : lower (lit "X-Content-Type-Options") ≠ lower (lit "Pragma")),
      hget_hset_ne _ _ _ _ (by decide : lower (lit "X-Content-Type-Options") ≠ lower (lit "Expires")),
      hget_hset_same]

/-- Every response leaving the security-header middleware has had any
`X-Powered-By` header removed. -/
theorem hget_applySecurityHeaders_xPoweredBy (prod : Bool) (resp : Resp) (req : Request) :
    hget (applySecurityHeaders prod resp req).headers (lit "X-Powered-By") = none := by
  unfold applySecurityHeaders
  dsimp only
  split_ifs <;>
    simp only [hget_hset_ne _ _ _ _ (by decide : lower (lit "X-Powered-By") ≠ lower (lit "Content-Security-Policy")),
      hget_hset_ne _ _ _ _ (by decide : lower (lit "X-Powered-By") ≠ lower (lit "Strict-Transport-Security")),
      hget_hset_ne _ _ _ _ (by decide : lower (lit "X-Powered-By") ≠ lower (lit "Cache-Control")),
      hget_hset_ne _ _ _ _ (by decide : lower (lit "X-Powered-By") ≠ lower (lit "Pragma")),
      hget_hset_ne _ _ _ _ (by decide : lower (lit "X-Powered-By") ≠ lower (lit "Expires")),
      hget_hdelete_same]

/-- Header names other than the two credential headers and `Vary` are
preserved by the CORS response decoration. -/
theorem hget_applyCorsHeaders_other (prod : Bool) (port : Nat) (resp : Resp)
    (origin : Option Str) (m : Str)
    (h1 : lower m ≠ lower (lit "Access-Control-Allow-Origin"))
    (h2 : lower m ≠ lower (lit "Access-Control-Allow-Credentials"))
    (h3 : lower m ≠ lower (lit "Vary")) :
    hget (applyCorsHeaders prod port resp origin).headers m = hget resp.headers m := by
  unfold applyCorsHeaders
  dsimp only
  split_ifs <;>
    simp only [hget_hset_ne _ _ _ _ h1, hget_hset_ne _ _ _ _ h2, hget_hset_ne _ _ _ _ h3]

/-- The CORS response decoration always sets `Vary: Origin`. -/
theorem hget_applyCorsHeaders_vary (prod : Bool) (port : Nat) (resp : Resp)
    (origin : Option Str) :
    hget (applyCorsHeaders prod port resp origin).headers (lit "Vary")
      = some (lit "Origin") := by
  unfold applyCorsHeaders
  dsimp only
  split_ifs <;> simp only [hget_hset_same]

/-- `wrapResponse` preserves headers the decorators do not write. -/
theorem hget_wrapResponse_other (e : Env) (req : Request) (resp : Resp) (m : Str)
    (h1 : lower m ≠ lower (lit "X-Content-Type-Options"))
    (h2 : lower m ≠ lower (lit "X-Frame-Options"))
    (h3 : lower m ≠ lower (lit "X-XSS-Protection"))
    (h4 : lower m ≠ lower (lit "Referrer-Policy"))
    (h5 : lower m ≠ lower (lit "Permissions-Policy"))
    (h6 : lower m ≠ lower (lit "X-Powered-By"))
    (h7 : lower m ≠ lower (lit "Content-Security-Policy"))
    (h8 : lower m ≠ lower (lit "Strict-Transport-Security"))
    (h9 : lower m ≠ lower (lit "Cache-Control"))
    (h10 : lower m ≠ lower (lit "Pragma"))
    (h11 : lower m ≠ lower (lit "Expires"))
    (hc1 : lower m ≠ lower (lit "Access-Control-Allow-Origin"))
    (hc2 : lower m ≠ lower (lit "Access-Control-Allow-Credentials"))
    (hc3 : lower m ≠ lower (lit "Vary"))
    (hst : lower m ≠ lower (lit "X-Server-Start-Time")) :
    hget (wrapResponse e req resp).headers m = hget resp.headers m := by
  unfold wrapResponse
  dsimp only
  rw [hget_applySecurityHeaders_other _ _ _ _ h1 h2 h3 h4 h5 h6 h7 h8 h9 h10 h11]
  split_ifs <;>
    simp only [hget_hset_ne _ _ _ _ hst,
      hget_applyCorsHeaders_other _ _ _ _ _ hc1 hc2 hc3]

/-- Every response leaving `wrapResponse` carries the anti-sniffing header
and no `X-Powered-By`. -/
theorem hget_wrapResponse_nosniff (e : Env) (req : Request) (resp : Resp) :
    hget (wrapResponse e req resp).headers (lit "X-Content-Type-Options")
      = some (lit "nosniff") := by
  unfold wrapResponse
  exact hget_applySecurityHeaders_nosniff _ _ _

theorem hget_wrapResponse_xPoweredBy (e : Env) (req : Request) (resp : Resp) :
    hget (wrapResponse e req resp).headers (lit "X-Powered-By") = none := by
  unfold wrapResponse
  exact hget_applySecurityHeaders_xPoweredBy _ _ _

/-- On API paths `wrapResponse` sets `Vary: Origin` via the CORS
decoration, and the security middleware leaves it alone. -/
theorem hget_wrapResponse_vary (e : Env) (req : Request) (resp : Resp)
    (hapi : (lit "/api").isPrefixOf req.path = true) :
    hget (wrapResponse e req resp).headers (lit "Vary") = some (lit "Origin") := by
  unfold wrapResponse
  dsimp only
  rw [hget_applySecurityHeaders_other _ _ _ _ (by decide) (by decide) (by decide) (by decide)
    (by decide) (by decide) (by decide) (by decide) (by decide) (by decide) (by decide)]
  rw [if_pos hapi]
  split_ifs <;>
    simp only [hget_hset_ne _ _ _ _ (by decide : lower (lit "Vary") ≠ lower (lit "X-Server-Start-Time")),
      hget_applyCorsHeaders_vary]

/-- The headers built by `handleCorsPreflightRequest` before the
method-independent ones are added. -/
def preflightBaseHs (prod : Bool) (port : Nat) (origin : Option Str) : HeadersL :=
  if originAllowed prod port origin then
    hset (hset [] (lit "Access-Control-Allow-Origin") (origin.getD []))
      (lit "Access-Control-Allow-Credentials") (lit "true")
  else []

def preflightResp (prod : Bool) (port : Nat) (origin : Option Str) : Resp :=
  ⟨204, none,
    hset (hset (hset (hset (preflightBaseHs prod port origin)
      (lit "Access-Control-Allow-Methods") (lit "GET, POST, PUT, DELETE, OPTIONS"))
      (lit "Access-Control-Allow-Headers") (lit "Content-Type, Authorization, X-CSRF-Token"))
      (lit "Access-Control-Max-Age") (lit "86400"))
      (lit "Vary") (lit "Origin")⟩

theorem handleCorsPreflightRequest_options (prod : Bool) (port : Nat) (req : Request)
    (hm : req.method = lit "OPTIONS") :
    handleCorsPreflightRequest prod port req = some (preflightResp prod port req.origin) := by
  unfold handleCorsPreflightRequest preflightResp preflightBaseHs
  rw [if_neg (by simp [hm])]

/-- Claim C6: an `OPTIONS` request to any `/api` path is answered by the
pipeline with status exactly 204 and a null body, carrying the
`Access-Control-Allow-Methods`, `Access-Control-Allow-Headers` (listing
Content-Type, Authorization and X-CSRF-Token), `Access-Control-Max-Age` and
`Vary: Origin` headers; the outcome is the same for every route handler and
the CSRF store is left untouched, so the request undergoes no CSRF,
rate-limit or auth check and reaches no handler. -/
theorem preflight_shape (e : Env) (now : Int)
    (handler : CsrfStore → Request → Resp × CsrfStore)
    (store : CsrfStore) (req : Request)
    (hm : req.method = lit "OPTIONS")
    (hapi : (lit "/api").isPrefixOf req.path = true) :
    (fetchModel e now handler store req).1.status = 204
    ∧ (fetchModel e now handler store req).1.body = none
    ∧ hget (fetchModel e now handler store req).1.headers (lit "Access-Control-Allow-Methods")
        = some (lit "GET, POST, PUT, DELETE, OPTIONS")
    ∧ hget (fetchModel e now handler store req).1.headers (lit "Access-Control-Allow-Headers")
        = some (lit "Content-Type, Authorization, X-CSRF-Token")
    ∧ hget (fetchModel e now handler store req).1.headers (lit "Access-Control-Max-Age")
        = some (lit "86400")
    ∧ hget (fetchModel e now handler store req).1.headers (lit "Vary")
        = some (lit "Origin")
    ∧ (∀ handler2, fetchModel e now handler2 store req = fetchModel e now handler store req)
    ∧ (fetchModel e now handler store req).2 = store := by
  have hfm : fetchModel e now handler store req =
      (wrapResponse e req (preflightResp e.prod e.port req.origin), store) := by
    simp only [fetchModel, hapi, if_true, handleCorsPreflightRequest_options e.prod e.port req hm]
  refine ⟨?_, ?_, ?_, ?_, ?_, ?_, ?_, ?_⟩
  · rw [hfm]; exact wrapResponse_status e req _
  · rw [hfm]; exact wrapResponse_body e req _
  · rw [hfm]
    show hget (wrapResponse e req (preflightResp e.prod e.port req.origin)).headers _ = _
    rw [hget_wrapResponse_other e req _ _ (by decide) (by decide) (by decide) (by decide)
      (by decide) (by decide) (by decide) (by decide) (by decide) (by decide) (by decide)
      (by decide) (by decide) (by decide) (by decide)]
    unfold preflightResp
    rw [hget_hset_ne _ _ _ _ (by decide), hget_hset_ne _ _ _ _ (by decide),
      hget_hset_ne _ _ _ _ (by decide), hget_hset_same]
  · rw [hfm]
    show hget (wrapResponse e req (preflightResp e.prod e.port req.origin)).headers _ = _
    rw [hget_wrapResponse_other e req _ _ (by decide) (by decide) (by decide) (by decide)
      (by decide) (by decide) (by decide) (by decide) (by decide) (by decide) (by decide)
      (by decide) (by decide) (by decide) (by decide)]
    unfold preflightResp
    rw [hget_hset_ne _ _ _ _ (by decide), hget_hset_ne _ _ _ _ (by decide), hget_hset_same]
  · rw [hfm]
    show hget (wrapResponse e req (preflightResp e.prod e.port req.origin)).headers _ = _
    rw [hget_wrapResponse_other e req _ _ (by decide) (by decide) (by decide) (by decide)
      (by decide) (by decide) (by decide) (by decide) (by decide) (by decide) (by decide)
      (by decide) (by decide) (by decide) (by decide)]
    unfold preflightResp
    rw [hget_hset_ne _ _ _ _ (by decide), hget_hset_same]
  · rw [hfm]
    exact hget_wrapResponse_vary e req _ hapi
  · intro handler2
    simp only [fetchModel, hapi, if_true, handleCorsPreflightRequest_options e.prod e.port req hm]
  · rw [hfm]

/-- An `OPTIONS` preflight request to an API path, used as witness input. -/
def reqOptions : Request :=
  { method := lit "OPTIONS", path := lit "/api/users",
    origin := some (lit "http://evil.example"),
    cookieHeader := none, csrfHeader := none, authHeader := none,
    forwardedFor := none }

/-- Witness for claim C6: the preflight theorem applied to a concrete
`OPTIONS /api/users` request. -/
theorem preflight_shape_witness :
    (fetchModel envDev 0 logoutRouteHandler [] reqOptions).1.status = 204
    ∧ hget (fetchModel envDev 0 logoutRouteHandler [] reqOptions).1.headers (lit "Vary")
        = some (lit "Origin") := by
  have h := preflight_shape envDev 0 logoutRouteHandler [] reqOptions (by decide) (by decide)
  exact ⟨h.1, h.2.2.2.2.2.1⟩

/-- Counterexample to claim C9: the `error` handler of `Bun.serve` returns
its 500 response directly to the transport, without `wrapResponse`; that
response does not carry `X-Content-Type-Options: nosniff`. -/
theorem error_path_no_nosniff :
    errorHandlerResponse.status = 500
    ∧ hget errorHandlerResponse.headers (lit "X-Content-Type-Options") = none := by
  decide

/-- Claim C9 (amended): every response produced by the server's `fetch`
pipeline — any path, method, handler outcome and status, including 404s —
carries `X-Content-Type-Options: nosniff` and no `X-Powered-By` header; the
uncaught-error 500 response of the separate `error` handler bypasses the
decorators (see the counterexample) though it, too, carries no
`X-Powered-By`. -/
theorem security_headers_amended (e : Env) (now : Int)
    (handler : CsrfStore → Request → Resp × CsrfStore)
    (store : CsrfStore) (req : Request) :
    hget (fetchModel e now handler store req).1.headers (lit "X-Content-Type-Options")
      = some (lit "nosniff")
    ∧ hget (fetchModel e now handler store req).1.headers (lit "X-Powered-By") = none
    ∧ hget errorHandlerResponse.headers (lit "X-Powered-By") = none := by
  refine ⟨?_, ?_, by decide⟩ <;>
  · by_cases hapi : (lit "/api").isPrefixOf req.path = true
    · simp only [fetchModel, hapi, if_true]
      cases hp : handleCorsPreflightRequest e.prod e.port req with
      | some pre =>
          simp only [hget_wrapResponse_nosniff, hget_wrapResponse_xPoweredBy]
      | none =>
          rcases happ : applyCsrfProtection store now req with ⟨o, st⟩
          cases o with
          | some err =>
              simp only [happ, hget_wrapResponse_nosniff, hget_wrapResponse_xPoweredBy]
          | none =>
              simp only [happ, hget_wrapResponse_nosniff, hget_wrapResponse_xPoweredBy]
    · simp only [fetchModel, Bool.not_eq_true] at hapi ⊢
      simp only [hapi, Bool.false_eq_true, if_false,
        hget_wrapResponse_nosniff, hget_wrapResponse_xPoweredBy]

/-- Counterexample to claim C4: in a non-production environment the CORS
decoration reflects any non-null `Origin` header — including the literal
`*` — together with `Access-Control-Allow-Credentials: true`, so a request
whose `Origin` header is the two-character string `*` produces exactly the
forbidden header pair. -/
theorem cors_wildcard_counterexample :
    hget (applyCorsHeaders false 3000 ⟨200, none, []⟩ (some (lit "*"))).headers
        (lit "Access-Control-Allow-Origin") = some (lit "*")
    ∧ hget (applyCorsHeaders false 3000 ⟨200, none, []⟩ (some (lit "*"))).headers
        (lit "Access-Control-Allow-Credentials") = some (lit "true") := by
  decide

theorem star_not_mem_allowed (port : Nat) : (lit "*") ∉ allowedOrigins true port := by
  unfold allowedOrigins
  simp only [if_true]
  decide

theorem originAllowed_true_iff (prod : Bool) (port : Nat) (origin : Option Str)
    (h : originAllowed prod port origin = true) :
    ∃ o, origin = some o ∧ o ≠ [] ∧ (o ∈ allowedOrigins prod port ∨ prod = false) := by
  cases origin with
  | none => simp [originAllowed] at h
  | some o =>
      simp only [originAllowed, decide_eq_true_eq] at h
      refine ⟨o, rfl, h.1, ?_⟩
      rcases h.2 with h2 | h2
      · exact Or.inl h2
      · exact Or.inr (by simpa using h2)

/-- Claim C4 (amended): the CORS decoration functions only ever reflect the
literal request origin, never a synthesized wildcard. On a response that
does not already carry `Access-Control-Allow-Origin`: any value they emit
for that header is exactly the request's `Origin` header, and in production
it is a member of the fixed allow-list (which does not contain `*`); the
forbidden pair `Access-Control-Allow-Origin: *` plus credentials can
therefore only occur when the request itself supplies the literal origin
`*` outside production (the counterexample). When the origin is allowed —
in production a literal member of the allow-list, otherwise any non-null
origin — the emitted header is exactly the literal request origin. -/
theorem cors_credential_safety_amended (prod : Bool) (port : Nat) (resp : Resp)
    (origin : Option Str)
    (hno : hget resp.headers (lit "Access-Control-Allow-Origin") = none) :
    (∀ v, hget (applyCorsHeaders prod port resp origin).headers
        (lit "Access-Control-Allow-Origin") = some v →
      origin = some v ∧ (prod = true → v ∈ allowedOrigins prod port))
    ∧ (hget (applyCorsHeaders prod port resp origin).headers
        (lit "Access-Control-Allow-Origin") = some (lit "*") →
      origin = some (lit "*") ∧ prod = false)
    ∧ (originAllowed prod port origin = true →
      hget (applyCorsHeaders prod port resp origin).headers
        (lit "Access-Control-Allow-Origin") = origin)
    ∧ (∀ req pre, req.origin = origin →
        handleCorsPreflightRequest prod port req = some pre →
        ∀ v, hget pre.headers (lit "Access-Control-Allow-Origin") = some v →
          origin = some v ∧ (prod = true → v ∈ allowedOrigins prod port)) := by
  have key : ∀ v, hget (applyCorsHeaders prod port resp origin).headers
      (lit "Access-Control-Allow-Origin") = some v →
      origin = some v ∧ (prod = true → v ∈ allowedOrigins prod port) := by
    intro v hv
    unfold applyCorsHeaders at hv
    dsimp only at hv
    cases hall : originAllowed prod port origin with
    | false =>
        rw [hall] at hv
        simp only [Bool.false_eq_true, if_false] at hv
        rw [hget_hset_ne _ _ _ _ (by decide), hno] at hv
        exact absurd hv (by simp)
    | true =>
        rw [hall] at hv
        simp only [if_true] at hv
        rw [hget_hset_ne _ _ _ _ (by decide), hget_hset_ne _ _ _ _ (by decide),
          hget_hset_same] at hv
        obtain ⟨o, ho, hne, hmem⟩ := originAllowed_true_iff prod port origin hall
        subst ho
        simp only [Option.getD_some] at hv
        obtain rfl : o = v := by injection hv
        refine ⟨rfl, fun hprod => ?_⟩
        rcases hmem with hm | hm
        · exact hm
        · rw [hprod] at hm; exact absurd hm (by decide)
  refine ⟨key, ?_, ?_, ?_⟩
  · intro hstar
    obtain ⟨ho, hp⟩ := key _ hstar
    refine ⟨ho, ?_⟩
    cases hprod : prod with
    | false => rfl
    | true =>
        have hmem := hp hprod
        rw [hprod] at hmem
        exact absurd hmem (star_not_mem_allowed port)
  · intro hall
    unfold applyCorsHeaders
    dsimp only
    rw [hall]
    simp only [if_true]
    rw [hget_hset_ne _ _ _ _ (by decide), hget_hset_ne _ _ _ _ (by decide), hget_hset_same]
    obtain ⟨o, ho, hne, hmem⟩ := originAllowed_true_iff prod port origin hall
    subst ho
    simp
  · intro req pre horig hpre v hv
    unfold handleCorsPreflightRequest at hpre
    by_cases hm : req.method ≠ lit "OPTIONS"
    · rw [if_pos hm] at hpre; exact absurd hpre (by simp)
    · rw [if_neg hm] at hpre
      dsimp only at hpre
      obtain rfl : pre = _ := (Option.some.inj hpre).symm
      rw [hget_hset_ne _ _ _ _ (by decide), hget_hset_ne _ _ _ _ (by decide),
        hget_hset_ne _ _ _ _ (by decide), hget_hset_ne _ _ _ _ (by decide)] at hv
      cases hall : originAllowed prod port req.origin with
      | false =>
          rw [hall] at hv
          simp [hget, alGet] at hv
      | true =>
          rw [hall] at hv
          simp only [if_true] at hv
          rw [hget_hset_ne _ _ _ _ (by decide), hget_hset_same] at hv
          rw [horig] at hall
          obtain ⟨o, ho, hne, hmem⟩ := originAllowed_true_iff prod port origin hall
          rw [horig, ho] at hv
          simp only [Option.getD_some] at hv
          obtain rfl : o = v := by injection hv
          refine ⟨ho, fun hprod => ?_⟩
          rcases hmem with hmm | hmm
          · exact hmm
          · rw [hprod] at hmm; exact absurd hmm (by decide)

/-- Claim C10: when `NODE_ENV` or `BUN_ENV` is `"test"`, every limiter
produced by `createRateLimiter` (in particular `authRateLimiter` and
`strictAuthRateLimiter`, which instantiate the same checker) allows every
request and leaves the store untouched. -/
theorem rate_limit_test_env_disabled (opts : RateLimitOptions)
    (nodeEnv bunEnv : Option Str) (store : RateLimitStore) (now : Int)
    (req : Request)
    (h : nodeEnv = some (lit "test") ∨ bunEnv = some (lit "test")) :
    rateLimitCheck opts nodeEnv bunEnv store now req = (none, store) := by
  unfold rateLimitCheck
  rw [if_pos h]

/-- Witness for claim C10: the `authRateLimiter` configuration with a store
entry far over the limit still allows the request in the test
environment. -/
theorem rate_limit_test_env_disabled_witness :
    rateLimitCheck authRateLimiterOpts (some (lit "test")) none
      [(lit "127.0.0.1", ⟨100, 900000⟩)] 5 reqPostUsers
      = (none, [(lit "127.0.0.1", ⟨100, 900000⟩)]) :=
  rate_limit_test_env_disabled authRateLimiterOpts _ _ _ _ _ (Or.inl rfl)

/-! ### A sequential run of the rate limiter, for the boundary claim -/

/-- Thread a list of `(time, request)` pairs through the limiter. -/
def rlRun (opts : RateLimitOptions) (nodeEnv bunEnv : Option Str)
    (store : RateLimitStore) : List (Int × Request) → List (Option Resp) × RateLimitStore
  | [] => ([], store)
  | (t, r) :: rest =>
      let step := rateLimitCheck opts nodeEnv bunEnv store t r
      let run := rlRun opts nodeEnv bunEnv step.2 rest
      (step.1 :: run.1, run.2)

/-- Expected per-request outcomes of a within-window run that starts with a
stored count of `c`. -/
def rlExpected (opts : RateLimitOptions) (R : Int) : Nat → List (Int × Request) → List (Option Resp)
  | _, [] => []
  | c, (t, _) :: rest =>
      (if c + 1 ≤ opts.max then none else some (rlRejectResp opts R t))
        :: rlExpected opts R (c + 1) rest

theorem rlRun_within (opts : RateLimitOptions) (nodeEnv bunEnv : Option Str)
    (henv : ¬(nodeEnv = some (lit "test") ∨ bunEnv = some (lit "test")))
    (ip : Str) (R : Int) (L : List (Int × Request)) :
    ∀ (c : Nat), (∀ p ∈ L, getClientIp p.2 = ip ∧ p.1 ≤ R) →
    rlRun opts nodeEnv bunEnv [(ip, ⟨c, R⟩)] L
      = (rlExpected opts R c L, [(ip, ⟨c + L.length, R⟩)]) := by
  induction L with
  | nil => intro c _; simp [rlRun, rlExpected]
  | cons p rest ih =>
      intro c hL
      obtain ⟨t, r⟩ := p
      obtain ⟨hip, ht⟩ := hL (t, r) (by simp)
      have hstep : rateLimitCheck opts nodeEnv bunEnv [(ip, ⟨c, R⟩)] t r
          = (if c + 1 ≤ opts.max then none else some (rlRejectResp opts R t),
             [(ip, ⟨c + 1, R⟩)]) := by
        unfold rateLimitCheck
        rw [if_neg henv]
        dsimp only
        rw [hip]
        have hg : alGet [(ip, (⟨c, R⟩ : RateLimitEntry))] ip = some ⟨c, R⟩ := by
          simp [alGet]
        rw [hg]
        dsimp only
        rw [if_neg (by exact not_lt.mpr ht)]
        have hs : alSet [(ip, (⟨c, R⟩ : RateLimitEntry))] ip ⟨c + 1, R⟩
            = [(ip, ⟨c + 1, R⟩)] := by
          simp [alSet]
        rw [hs]
        by_cases hc : c + 1 ≤ opts.max
        · rw [if_neg (by omega), if_pos hc]
        · rw [if_pos (by omega), if_neg hc]
      unfold rlRun
      rw [hstep]
      dsimp only
      rw [ih (c + 1) (fun q hq => hL q (by simp [hq]))]
      simp [rlExpected]
      omega

/-- Claim C5: with the `authRateLimiter` configuration (max 5 requests per
15-minute window) and a fixed client identifier, the first five requests of
a window are allowed and the sixth is rejected with status 429, a positive
`Retry-After` and `X-RateLimit-Remaining: 0`; any later request while the
window lasts and the count is at least 5 is likewise rejected; and the
first request after the stored reset time has passed is allowed again with
a fresh window whose count is 1. -/
theorem rate_limit_boundary (nodeEnv bunEnv : Option Str)
    (henv : ¬(nodeEnv = some (lit "test") ∨ bunEnv = some (lit "test")))
    (ip : Str) (r1 r2 r3 r4 r5 r6 : Request) (t1 t2 t3 t4 t5 t6 : Int)
    (hip1 : getClientIp r1 = ip) (hip2 : getClientIp r2 = ip)
    (hip3 : getClientIp r3 = ip) (hip4 : getClientIp r4 = ip)
    (hip5 : getClientIp r5 = ip) (hip6 : getClientIp r6 = ip)
    (hw2 : t2 < t1 + 900000) (hw3 : t3 < t1 + 900000)
    (hw4 : t4 < t1 + 900000) (hw5 : t5 < t1 + 900000)
    (hw6 : t6 < t1 + 900000) :
    rlRun authRateLimiterOpts nodeEnv bunEnv []
        [(t1, r1), (t2, r2), (t3, r3), (t4, r4), (t5, r5), (t6, r6)]
      = ([none, none, none, none, none,
          some (rlRejectResp authRateLimiterOpts (t1 + 900000) t6)],
         [(ip, ⟨6, t1 + 900000⟩)])
    ∧ (rlRejectResp authRateLimiterOpts (t1 + 900000) t6).status = 429
    ∧ hget (rlRejectResp authRateLimiterOpts (t1 + 900000) t6).headers
        (lit "X-RateLimit-Remaining") = some (lit "0")
    ∧ (∃ ra : Nat, 0 < ra ∧
        hget (rlRejectResp authRateLimiterOpts (t1 + 900000) t6).headers
          (lit "Retry-After") = some (natToStr ra))
    ∧ (∀ (r : Request) (t : Int) (k : Nat), getClientIp r = ip →
        t ≤ t1 + 900000 → 5 ≤ k →
        (rateLimitCheck authRateLimiterOpts nodeEnv bunEnv
            [(ip, ⟨k, t1 + 900000⟩)] t r).1
          = some (rlRejectResp authRateLimiterOpts (t1 + 900000) t))
    ∧ (∀ (r : Request) (t : Int) (en : RateLimitEntry), getClientIp r = ip →
        en.resetTime < t →
        rateLimitCheck authRateLimiterOpts nodeEnv bunEnv [(ip, en)] t r
          = (none, [(ip, ⟨1, t + 900000⟩)])) := by
  have hW : authRateLimiterOpts.windowMs = 900000 := by norm_num [authRateLimiterOpts]
  refine ⟨?_, rfl, rfl, ?_, ?_, ?_⟩
  · have hfresh : rateLimitCheck authRateLimiterOpts nodeEnv bunEnv [] t1 r1
        = (none, [(ip, ⟨1, t1 + 900000⟩)]) := by
      unfold rateLimitCheck
      rw [if_neg henv]
      dsimp only
      rw [hip1, hW]
      simp [alGet, alSet]
    have hrun := rlRun_within authRateLimiterOpts nodeEnv bunEnv henv ip (t1 + 900000)
        [(t2, r2), (t3, r3), (t4, r4), (t5, r5), (t6, r6)] 1
        (by
          intro p hp
          simp only [List.mem_cons, List.not_mem_nil, or_false] at hp
          rcases hp with h | h | h | h | h <;> subst h <;>
            simp [hip2, hip3, hip4, hip5, hip6] <;> omega)
    unfold rlRun
    rw [hfresh]
    dsimp only
    rw [hrun]
    norm_num [rlExpected, authRateLimiterOpts]
  · refine ⟨((t1 + 900000 - t6).toNat + 999) / 1000, ?_, rfl⟩
    omega
  · intro r t k hipr ht hk
    unfold rateLimitCheck
    rw [if_neg henv]
    dsimp only
    rw [hipr]
    have hg : alGet [(ip, (⟨k, t1 + 900000⟩ : RateLimitEntry))] ip
        = some ⟨k, t1 + 900000⟩ := by simp [alGet]
    rw [hg]
    dsimp only
    rw [if_neg (by exact not_lt.mpr ht)]
    rw [if_pos (by simp [authRateLimiterOpts]; omega)]
  · intro r t en hipr hexp
    unfold rateLimitCheck
    rw [if_neg henv]
    dsimp only
    rw [hipr, hW]
    have hg : alGet [(ip, en)] ip = some en := by simp [alGet]
    rw [hg]
    dsimp only
    rw [if_pos hexp]
    simp [alSet]

/-- Witness for claim C4 (amended): in production, the allow-listed origin
is reflected literally. -/
theorem cors_credential_safety_amended_witness :
    hget (applyCorsHeaders true 3000 ⟨200, none, []⟩
        (some (lit "https://yourdomain.com"))).headers
      (lit "Access-Control-Allow-Origin") = some (lit "https://yourdomain.com") := by
  have h := cors_credential_safety_amended true 3000 ⟨200, none, []⟩
      (some (lit "https://yourdomain.com")) (by decide)
  exact h.2.2.1 (by decide)

/-- Witness for claim C5: six immediate requests from the loopback client;
the sixth is the 429 rejection and the stored count reaches 6. -/
theorem rate_limit_boundary_witness :
    rlRun authRateLimiterOpts none none []
        [(0, reqPostUsers), (1, reqPostUsers), (2, reqPostUsers),
         (3, reqPostUsers), (4, reqPostUsers), (5, reqPostUsers)]
      = ([none, none, none, none, none,
          some (rlRejectResp authRateLimiterOpts 900000 5)],
         [(lit "127.0.0.1", ⟨6, 900000⟩)]) := by
  have h := rate_limit_boundary none none (by simp) (lit "127.0.0.1")
      reqPostUsers reqPostUsers reqPostUsers reqPostUsers reqPostUsers reqPostUsers
      0 1 2 3 4 5 (by decide) (by decide) (by decide) (by decide) (by decide)
      (by decide) (by norm_num) (by norm_num) (by norm_num) (by norm_num) (by norm_num)
  simpa using h.1

/-! ### Interleaved CSRF-store operations, for the happy-path claim -/

/-- The operations other requests may perform on the shared CSRF store
between issuance and validation. -/
inductive CsrfOp where
  | gen (tok cook : Str) (t : Int)
  | validate (c tk : Option Str) (t : Int)
  | clear (c : Str)

def csrfApplyOp (store : CsrfStore) : CsrfOp → CsrfStore
  | CsrfOp.gen tok cook t => (generateCsrfToken store t tok cook).2
  | CsrfOp.validate c tk t => (validateCsrfToken store t c tk).2
  | CsrfOp.clear c => clearCsrfToken store c

def csrfApplyOps (store : CsrfStore) : List CsrfOp → CsrfStore
  | [] => store
  | op :: rest => csrfApplyOps (csrfApplyOp store op) rest

/-- An operation that neither revokes nor regenerates the given cookie and
happens no later than its expiry. -/
def opPreserves (cook : Str) (exp : Int) : CsrfOp → Prop
  | CsrfOp.gen _ c t => c ≠ cook ∧ t ≤ exp
  | CsrfOp.validate _ _ t => t ≤ exp
  | CsrfOp.clear c => c ≠ cook

theorem alGet_cleanup (store : CsrfStore) (now : Int) (k : Str) (en : CsrfEntry)
    (h : alGet store k = some en) (hk : ¬(en.expires < now)) :
    alGet (cleanupExpiredTokens store now) k = some en := by
  induction store with
  | nil => simp [alGet] at h
  | cons p t ih =>
      by_cases hp : p.1 = k
      · have hpe : p.2 = en := by
          rw [alGet, if_pos hp] at h
          exact Option.some.inj h
        unfold cleanupExpiredTokens
        rw [List.filter_cons, if_pos (by simpa [hpe] using hk)]
        rw [alGet, if_pos hp, hpe]
      · rw [alGet, if_neg hp] at h
        unfold cleanupExpiredTokens
        rw [List.filter_cons]
        by_cases hkeep : (¬(p.2.expires < now) : Bool)
        · rw [if_pos hkeep, alGet, if_neg hp]
          exact ih h
        · rw [if_neg hkeep]
          exact ih h

theorem csrfOp_preserves (store : CsrfStore) (cook : Str) (en : CsrfEntry)
    (op : CsrfOp) (hmem : alGet store cook = some en)
    (hop : opPreserves cook en.expires op) :
    alGet (csrfApplyOp store op) cook = some en := by
  cases op with
  | gen tok c t =>
      obtain ⟨hc, ht⟩ := hop
      simp only [csrfApplyOp, generateCsrfToken]
      refine alGet_cleanup _ _ _ _ ?_ (by omega)
      rw [alGet_alSet_ne _ _ _ _ (Ne.symm hc)]
      exact hmem
  | validate c tk t =>
      have ht : t ≤ en.expires := hop
      simp only [csrfApplyOp]
      unfold validateCsrfToken
      by_cases hf : (jsStrFalsy c ∨ jsStrFalsy tk : Prop)
      · rw [if_pos hf]; exact hmem
      · rw [if_neg hf]
        dsimp only
        match halg : alGet store (c.getD []) with
        | none => exact hmem
        | some stored =>
            dsimp only
            by_cases hexp : stored.expires < t
            · rw [if_pos hexp]
              dsimp only
              by_cases hcc : c.getD [] = cook
              · rw [hcc] at halg
                rw [hmem] at halg
                obtain rfl : stored = en := (Option.some.inj halg).symm
                exact absurd hexp (by omega)
              · rw [alGet_alDel_ne _ _ _ (fun hcon => hcc hcon.symm)]
                exact hmem
            · rw [if_neg hexp]
              exact hmem
  | clear c =>
      simp only [csrfApplyOp, clearCsrfToken]
      rw [alGet_alDel_ne _ _ _ (Ne.symm hop)]
      exact hmem

theorem csrfOps_preserve (ops : List CsrfOp) :
    ∀ (store : CsrfStore) (cook : Str) (en : CsrfEntry),
    alGet store cook = some en →
    (∀ op ∈ ops, opPreserves cook en.expires op) →
    alGet (csrfApplyOps store ops) cook = some en := by
  induction ops with
  | nil => intro store cook en hmem _; exact hmem
  | cons op rest ih =>
      intro store cook en hmem hops
      unfold csrfApplyOps
      exact ih _ _ _ (csrfOp_preserves store cook en op hmem (hops op (by simp)))
        (fun o ho => hops o (by simp [ho]))

/-- Claim C7: the pair returned by one `generateCsrfToken` call validates
at any time within 24 hours under any interleaving of store operations
that neither revokes nor regenerates that cookie; consequently a mutating
API request presenting exactly that cookie and header token passes CSRF
enforcement and the pipeline hands it to its route handler. -/
theorem csrf_happy_path (store0 : CsrfStore) (now now2 : Int) (tok cook : Str)
    (ops : List CsrfOp)
    (htok : tok ≠ []) (hcook : cook ≠ [])
    (hops : ∀ op ∈ ops, opPreserves cook (now + 24 * 60 * 60 * 1000) op)
    (hnow2 : now2 ≤ now + 24 * 60 * 60 * 1000) :
    (validateCsrfToken (csrfApplyOps (generateCsrfToken store0 now tok cook).2 ops)
        now2 (some cook) (some tok)).1 = true
    ∧ ∀ (e : Env) (handler : CsrfStore → Request → Resp × CsrfStore) (req : Request),
        (req.method = lit "POST" ∨ req.method = lit "PUT" ∨ req.method = lit "DELETE") →
        (lit "/api").isPrefixOf req.path = true →
        csrfCookieOf req = some cook →
        req.csrfHeader = some tok →
        fetchModel e now2 handler
            (csrfApplyOps (generateCsrfToken store0 now tok cook).2 ops) req
          = (wrapResponse e req
              (handler (csrfApplyOps (generateCsrfToken store0 now tok cook).2 ops) req).1,
             (handler (csrfApplyOps (generateCsrfToken store0 now tok cook).2 ops) req).2) := by
  have hmem1 : alGet (generateCsrfToken store0 now tok cook).2 cook
      = some ⟨tok, now + 24 * 60 * 60 * 1000⟩ := by
    simp only [generateCsrfToken]
    refine alGet_cleanup _ _ _ _ ?_
      (by show ¬(now + 24 * 60 * 60 * 1000 < now); omega)
    exact alGet_alSet_same _ _ _
  have hmem2 : alGet (csrfApplyOps (generateCsrfToken store0 now tok cook).2 ops) cook
      = some ⟨tok, now + 24 * 60 * 60 * 1000⟩ :=
    csrfOps_preserve ops _ _ _ hmem1 hops
  have hval : validateCsrfToken (csrfApplyOps (generateCsrfToken store0 now tok cook).2 ops)
      now2 (some cook) (some tok)
      = (true, csrfApplyOps (generateCsrfToken store0 now tok cook).2 ops) := by
    unfold validateCsrfToken
    rw [if_neg (by simp [jsStrFalsy, hcook, htok])]
    dsimp only [Option.getD_some]
    rw [hmem2]
    dsimp only
    rw [if_neg (not_lt.mpr hnow2)]
    simp
  refine ⟨by rw [hval], ?_⟩
  intro e handler req hm hapi hcv hct
  have hpre : handleCorsPreflightRequest e.prod e.port req = none := by
    unfold handleCorsPreflightRequest
    rw [if_pos]
    rcases hm with h | h | h <;> rw [h] <;> decide
  have happ : applyCsrfProtection (csrfApplyOps (generateCsrfToken store0 now tok cook).2 ops)
      now2 req = (none, csrfApplyOps (generateCsrfToken store0 now tok cook).2 ops) := by
    unfold applyCsrfProtection
    by_cases hrp : requiresCsrfProtection req = true
    · rw [if_neg (by simp [hrp])]
      simp only [csrfCookieOf] at hcv
      dsimp only
      rw [hcv, hct, hval]
    · rw [if_pos (by simpa using hrp)]
  simp only [fetchModel, hapi, if_true, hpre, happ]

/-- Witness for claim C7: a freshly issued pair, one interleaved issuance
for a different cookie, validation at the expiry boundary. -/
theorem csrf_happy_path_witness :
    (validateCsrfToken
        (csrfApplyOps (generateCsrfToken [] 0 (lit "tk") (lit "ck")).2
          [CsrfOp.gen (lit "t2") (lit "c2") 5])
        86400000 (some (lit "ck")) (some (lit "tk"))).1 = true := by
  have h := csrf_happy_path [] 0 86400000 (lit "tk") (lit "ck")
      [CsrfOp.gen (lit "t2") (lit "c2") 5] (by decide) (by decide)
      (by
        intro op hop
        simp only [List.mem_singleton] at hop
        subst hop
        exact ⟨by decide, by norm_num⟩)
      (by norm_num)
  exact h.1

/-- A logout request presenting a valid CSRF pair but no `Authorization`
header. -/
def reqLogoutNoAuth : Request :=
  { method := lit "POST", path := lit "/api/auth/logout", origin := none,
    cookieHeader := some (lit "csrf-token=ck"), csrfHeader := some (lit "tk"),
    authHeader := none, forwardedFor := none }

/-- Counterexample to claim C8: a `POST /api/auth/logout` request without
any `Authorization` header is not rejected — no auth middleware runs on the
route — and it reaches the handler, which answers 200 and deletes the CSRF
entry. -/
theorem logout_no_auth_counterexample :
    reqLogoutNoAuth.authHeader = none
    ∧ (fetchModel envDev 0 logoutRouteHandler
        [(lit "ck", ⟨lit "tk", 86400000⟩)] reqLogoutNoAuth).1.status = 200
    ∧ (fetchModel envDev 0 logoutRouteHandler
        [(lit "ck", ⟨lit "tk", 86400000⟩)] reqLogoutNoAuth).2 = [] := by
  decide

/-- Claim C8 (amended): `POST /api/auth/logout` requires no bearer token —
the route has no auth middleware and the `Authorization` header is left
entirely unconstrained below — but it does require a valid CSRF pair (the
path is not CSRF-exempt). On success the handler deletes the CSRF store
entry keyed by the request's `csrf-token` cookie value and responds 200
with a `Set-Cookie` header clearing the cookie via `Max-Age=0`. -/
theorem logout_amended (e : Env) (now : Int) (store : CsrfStore) (req : Request)
    (cook tok : Str) (en : CsrfEntry)
    (hm : req.method = lit "POST") (hp : req.path = lit "/api/auth/logout")
    (hcv : csrfCookieOf req = some cook)
    (hct : req.csrfHeader = some tok) (htok : tok ≠ [])
    (hen : alGet store cook = some en) (hent : en.token = tok)
    (hexp : ¬(en.expires < now)) :
    (fetchModel e now logoutRouteHandler store req).1.status = 200
    ∧ hget (fetchModel e now logoutRouteHandler store req).1.headers (lit "Set-Cookie")
        = some (lit "csrf-token=; HttpOnly; SameSite=Strict; Path=/; Max-Age=0")
    ∧ (fetchModel e now logoutRouteHandler store req).2 = clearCsrfToken store cook := by
  have hboth : alGet (parseCookies (req.cookieHeader.getD [])) (lit "csrf-token") = some cook
      ∧ cook ≠ [] := by
    unfold csrfCookieOf at hcv
    rcases halg : alGet (parseCookies (req.cookieHeader.getD [])) (lit "csrf-token") with _ | v
    · rw [halg] at hcv
      dsimp only [orNull] at hcv
      exact absurd hcv (by simp)
    · rw [halg] at hcv
      dsimp only [orNull] at hcv
      by_cases hv : v = []
      · rw [if_pos hv] at hcv
        exact absurd hcv (by simp)
      · rw [if_neg hv] at hcv
        obtain rfl : v = cook := Option.some.inj hcv
        exact ⟨rfl, hv⟩
  obtain ⟨hraw, hcook⟩ := hboth
  have hval : validateCsrfToken store now (some cook) (some tok) = (true, store) := by
    unfold validateCsrfToken
    rw [if_neg (by simp [jsStrFalsy, hcook, htok])]
    dsimp only [Option.getD_some]
    rw [hen]
    dsimp only
    rw [if_neg hexp]
    simp [hent]
  have hpre : handleCorsPreflightRequest e.prod e.port req = none := by
    unfold handleCorsPreflightRequest
    rw [if_pos (by rw [hm]; decide)]
  have happ : applyCsrfProtection store now req = (none, store) := by
    unfold applyCsrfProtection
    rw [if_neg (by
      simp only [requiresCsrfProtection, hm, hp]
      decide)]
    dsimp only
    simp only [csrfCookieOf] at hcv
    rw [hcv, hct, hval]
  have hapi : (lit "/api").isPrefixOf req.path = true := by rw [hp]; decide
  have hhandler : logoutRouteHandler store req =
      (⟨200, some (lit "\x7b\"message\":\"Logged out successfully\"\x7d"),
          happend [] (lit "Set-Cookie")
            (lit "csrf-token=; HttpOnly; SameSite=Strict; Path=/; Max-Age=0")⟩,
       clearCsrfToken store cook) := by
    unfold logoutRouteHandler
    rw [if_pos ⟨hp, hm⟩]
    unfold logoutPOST
    dsimp only
    rw [hraw]
    dsimp only
    rw [if_pos hcook]
  have hfm : fetchModel e now logoutRouteHandler store req =
      (wrapResponse e req
        ⟨200, some (lit "\x7b\"message\":\"Logged out successfully\"\x7d"),
          happend [] (lit "Set-Cookie")
            (lit "csrf-token=; HttpOnly; SameSite=Strict; Path=/; Max-Age=0")⟩,
       clearCsrfToken store cook) := by
    simp only [fetchModel, hapi, if_true, hpre, happ, hhandler]
  rw [hfm]
  refine ⟨wrapResponse_status e req _, ?_, rfl⟩
  rw [hget_wrapResponse_other e req _ _ (by decide) (by decide) (by decide) (by decide)
    (by decide) (by decide) (by decide) (by decide) (by decide) (by decide) (by decide)
    (by decide) (by decide) (by decide) (by decide)]
  decide

/-- Witness for claim C8 (amended): the concrete logout scenario. -/
theorem logout_amended_witness :
    (fetchModel envDev 0 logoutRouteHandler
        [(lit "ck", ⟨lit "tk", 86400000⟩)] reqLogoutNoAuth).1.status = 200
    ∧ (fetchModel envDev 0 logoutRouteHandler
        [(lit "ck", ⟨lit "tk", 86400000⟩)] reqLogoutNoAuth).2
        = clearCsrfToken [(lit "ck", ⟨lit "tk", 86400000⟩)] (lit "ck") := by
  have h := logout_amended envDev 0 [(lit "ck", ⟨lit "tk", 86400000⟩)] reqLogoutNoAuth
      (lit "ck") (lit "tk") ⟨lit "tk", 86400000⟩ (by decide) (by decide) (by decide)
      (by decide) (by decide) (by decide) (by decide) (by decide)
  exact ⟨h.1, h.2.2⟩

end MyApp
